import Mathlib

/-!
Verification of the mcp-gateway2 gateway: the tool-invocation engine
(pkg/mcp/service.go), the inbound handlers (internal/api/mcp_server.go,
internal/api/http_interface.go), the in-memory repositories
(internal/repository/http_interface_memory.go and the in-memory MCP-server
repository), and the OpenAPI transcoder (pkg/models).  Go code is shallowly
embedded: dynamic JSON values become an inductive type, machine strings are
manipulated through fuel-based character-list functions so that every
definition evaluates inside the kernel, and stateful repositories become
explicit state-passing functions.
-/

namespace MCPGateway

/-- Dynamic Go values as produced by encoding/json unmarshalling into
interface\x7b\x7d / map[string]interface\x7b\x7d.  Objects keep insertion
order as association lists.  Numbers are modelled as integers; no verified
property depends on fractional values. -/
inductive GoVal where
  | vNull : GoVal
  | vBool : Bool → GoVal
  | vNum : Int → GoVal
  | vStr : String → GoVal
  | vArr : List GoVal → GoVal
  | vObj : List (String × GoVal) → GoVal
deriving Inhabited

/-- Character-list substring containment: model of Go strings.Contains. -/
def listContains (s pat : List Char) : Bool :=
  match s with
  | [] => pat.isEmpty
  | _ :: tl => pat.isPrefixOf s || listContains tl pat

/-- Model of Go strings.Contains on strings. -/
def strContains (s pat : String) : Bool :=
  listContains s.data pat.data

/-- Fuel-based replace-all on character lists (left to right, non-overlapping).
The fuel is the length of the subject, which suffices because every step
consumes at least one character.  An empty pattern is returned unchanged
(the gateway only ever substitutes nonempty placeholder patterns). -/
def listReplaceAux : Nat → List Char → List Char → List Char → List Char
  | 0, s, _, _ => s
  | fuel + 1, s, pat, rep =>
    match s with
    | [] => []
    | c :: tl =>
      if !pat.isEmpty && pat.isPrefixOf s then
        rep ++ listReplaceAux fuel (s.drop pat.length) pat rep
      else
        c :: listReplaceAux fuel tl pat rep

/-- Model of Go strings.ReplaceAll. -/
def strReplace (s pat rep : String) : String :=
  ⟨listReplaceAux s.data.length s.data pat.data rep.data⟩

/-- Whitespace recognizer for the regex class \s. -/
def isWS (c : Char) : Bool :=
  c = ' ' || c = '\t' || c = '\n' || c = '\r'

/-- Lexicographic comparison of character lists (byte order, as Go sorts
map keys when marshalling). -/
def charListLe : List Char → List Char → Bool
  | [], _ => true
  | _ :: _, [] => false
  | a :: as, b :: bs =>
    if a = b then charListLe as bs else decide (a.toNat < b.toNat)

/-- String comparison used to sort object keys in the marshal model. -/
def strLe (a b : String) : Bool :=
  charListLe a.data b.data

/-- Insertion sort of key/value pairs by key, the model of the sorted-key
traversal Go performs when marshalling a map[string]interface\x7b\x7d. -/
def insertByKey (kv : String × GoVal) : List (String × GoVal) → List (String × GoVal)
  | [] => [kv]
  | hd :: tl => if strLe kv.1 hd.1 then kv :: hd :: tl else hd :: insertByKey kv tl

/-- Sort an association list by key. -/
def sortByKey (kvs : List (String × GoVal)) : List (String × GoVal) :=
  kvs.foldr insertByKey []

/-- Decimal digit character. -/
def digitChar (d : Nat) : Char :=
  match d with
  | 0 => '0' | 1 => '1' | 2 => '2' | 3 => '3' | 4 => '4'
  | 5 => '5' | 6 => '6' | 7 => '7' | 8 => '8' | _ => '9'

/-- Fuel-based most-significant-first decimal digits of a natural number. -/
def natToDigits : Nat → Nat → List Char
  | 0, _ => []
  | fuel + 1, n =>
    if n = 0 then [] else natToDigits fuel (n / 10) ++ [digitChar (n % 10)]

/-- Decimal rendering of a natural number. -/
def natToStrList (n : Nat) : List Char :=
  if n = 0 then ['0'] else natToDigits n n

/-- Decimal rendering of an integer: model of fmt.Sprintf with verb d. -/
def intToStrList (n : Int) : List Char :=
  if n < 0 then '-' :: natToStrList n.natAbs else natToStrList n.natAbs

/-- Decimal rendering of an integer as a string. -/
def intToStr (n : Int) : String :=
  ⟨intToStrList n⟩

/-- Numeric value of a decimal digit character, if any. -/
def digitVal (c : Char) : Option Nat :=
  if 48 ≤ c.toNat && c.toNat ≤ 57 then some (c.toNat - 48) else none

/-- Accumulating decimal parser over digit characters. -/
def parseNatAux : Nat → List Char → Option Nat
  | acc, [] => some acc
  | acc, c :: tl =>
    match digitVal c with
    | some d => parseNatAux (acc * 10 + d) tl
    | none => none

/-- Parse a nonempty all-digit character list. -/
def parseNatDigits : List Char → Option Nat
  | [] => none
  | c :: tl => parseNatAux 0 (c :: tl)

/-- Model of Go strconv.Atoi: optional sign followed by decimal digits. -/
def atoiModel (s : String) : Option Int :=
  match s.data with
  | [] => none
  | c :: tl =>
    if c = '-' then (parseNatDigits tl).map (fun m => -(m : Int))
    else if c = '+' then (parseNatDigits tl).map (fun m => (m : Int))
    else (parseNatDigits (c :: tl)).map (fun m => (m : Int))

/-- A JSON whitespace character. -/
def jsonWSChar (c : Char) : Bool :=
  c = ' ' || c = '\t' || c = '\n' || c = '\r'

/-- Skip JSON whitespace. -/
def skipWS (s : List Char) : List Char :=
  s.dropWhile jsonWSChar

/-- Unescape one JSON escape character. -/
def unescChar (c : Char) : Option Char :=
  if c = '"' then some '"'
  else if c = '\\' then some '\\'
  else if c = '/' then some '/'
  else if c = 'n' then some '\n'
  else if c = 't' then some '\t'
  else if c = 'r' then some '\r'
  else none

/-- Parse the body of a JSON string after the opening quote, returning the
decoded characters and the rest of the input. -/
def parseStrBody : List Char → Option (List Char × List Char)
  | [] => none
  | '"' :: tl => some ([], tl)
  | '\\' :: c :: tl =>
    match unescChar c, parseStrBody tl with
    | some d, some (cs, rest) => some (d :: cs, rest)
    | _, _ => none
  | c :: tl =>
    match parseStrBody tl with
    | some (cs, rest) => some (c :: cs, rest)
    | none => none

/-- Leading run of decimal digits. -/
def digitSpan : List Char → List Char × List Char
  | [] => ([], [])
  | c :: tl =>
    match digitVal c with
    | none => ([], c :: tl)
    | some _ =>
      let rest := digitSpan tl
      (c :: rest.1, rest.2)

/-- Parse an integer JSON number (a fraction or exponent makes the parse
fail; the verified properties never traffic in fractional numbers). -/
def parseJsonNum (s : List Char) : Option (Int × List Char) :=
  match s with
  | '-' :: tl =>
    match digitSpan tl with
    | ([], _) => none
    | (ds, rest) =>
      match rest with
      | '.' :: _ => none
      | 'e' :: _ => none
      | 'E' :: _ => none
      | _ => (parseNatDigits ds).map (fun m => (-(m : Int), rest))
  | _ =>
    match digitSpan s with
    | ([], _) => none
    | (ds, rest) =>
      match rest with
      | '.' :: _ => none
      | 'e' :: _ => none
      | 'E' :: _ => none
      | _ => (parseNatDigits ds).map (fun m => ((m : Int), rest))

/-- Parsing modes: a single value, the items of an array after its first
character, or the members of an object after its first character. -/
inductive PMode where
  | value : PMode
  | arrItems : List GoVal → PMode
  | objItems : List (String × GoVal) → PMode

/-- Fuel-based JSON parser, the model of encoding/json decoding into dynamic
values.  Returns the parsed value and the unconsumed input. -/
def parseAux : Nat → PMode → List Char → Option (GoVal × List Char)
  | 0, _, _ => none
  | fuel + 1, PMode.value, s =>
    let s1 := skipWS s
    if "null".data.isPrefixOf s1 then some (GoVal.vNull, s1.drop 4)
    else if "true".data.isPrefixOf s1 then some (GoVal.vBool true, s1.drop 4)
    else if "false".data.isPrefixOf s1 then some (GoVal.vBool false, s1.drop 5)
    else
    match s1 with
    | '"' :: tl =>
      match parseStrBody tl with
      | some (cs, rest) => some (GoVal.vStr ⟨cs⟩, rest)
      | none => none
    | '[' :: tl =>
      match skipWS tl with
      | ']' :: rest => some (GoVal.vArr [], rest)
      | tl2 => parseAux fuel (PMode.arrItems []) tl2
    | '{' :: tl =>
      match skipWS tl with
      | '}' :: rest => some (GoVal.vObj [], rest)
      | tl2 => parseAux fuel (PMode.objItems []) tl2
    | s2 => (parseJsonNum s2).map (fun p => (GoVal.vNum p.1, p.2))
  | fuel + 1, PMode.arrItems acc, s =>
    match parseAux fuel PMode.value s with
    | some (v, rest) =>
      match skipWS rest with
      | ',' :: rest2 => parseAux fuel (PMode.arrItems (acc ++ [v])) rest2
      | ']' :: rest2 => some (GoVal.vArr (acc ++ [v]), rest2)
      | _ => none
    | none => none
  | fuel + 1, PMode.objItems acc, s =>
    match skipWS s with
    | '"' :: tl =>
      match parseStrBody tl with
      | some (cs, rest) =>
        match skipWS rest with
        | ':' :: rest2 =>
          match parseAux fuel PMode.value rest2 with
          | some (v, rest3) =>
            match skipWS rest3 with
            | ',' :: rest4 => parseAux fuel (PMode.objItems (acc ++ [(⟨cs⟩, v)])) rest4
            | '}' :: rest4 => some (GoVal.vObj (acc ++ [(⟨cs⟩, v)]), rest4)
            | _ => none
          | none => none
        | _ => none
      | none => none
    | _ => none

/-- Parse a complete JSON document. -/
def parseJson (s : String) : Option GoVal :=
  match parseAux (4 * s.data.length + 8) PMode.value s.data with
  | some (v, rest) => if (skipWS rest).isEmpty then some v else none
  | none => none

/-- Model of Go json.Valid. -/
def jsonValid (s : String) : Bool :=
  (parseJson s).isSome

/-- Parse a JSON document that must be an object, as Go unmarshalling into a
map[string]interface\x7b\x7d requires. -/
def parseJsonObj (s : String) : Option (List (String × GoVal)) :=
  match parseJson s with
  | some (GoVal.vObj kvs) => some kvs
  | _ => none

/-- Escape a string for JSON output. -/
def escJsonChar (c : Char) : List Char :=
  if c = '"' then ['\\', '"']
  else if c = '\\' then ['\\', '\\']
  else if c = '\n' then ['\\', 'n']
  else if c = '\t' then ['\\', 't']
  else if c = '\r' then ['\\', 'r']
  else [c]

/-- Render a JSON string literal. -/
def renderJsonStr (s : String) : List Char :=
  '"' :: s.data.foldr (fun c acc => escJsonChar c ++ acc) ['"']

/-- Join character lists with commas. -/
def commaJoin : List (List Char) → List Char
  | [] => []
  | [x] => x
  | x :: xs => x ++ ',' :: commaJoin xs

/-- Fuel-based JSON renderer, the model of json.Marshal: object keys are
emitted in sorted order, exactly as Go marshals a map. -/
def jsonRenderAux : Nat → GoVal → List Char
  | 0, _ => []
  | fuel + 1, v =>
    match v with
    | GoVal.vNull => ['n', 'u', 'l', 'l']
    | GoVal.vBool true => ['t', 'r', 'u', 'e']
    | GoVal.vBool false => ['f', 'a', 'l', 's', 'e']
    | GoVal.vNum n => intToStrList n
    | GoVal.vStr s => renderJsonStr s
    | GoVal.vArr xs => '[' :: commaJoin (xs.map (jsonRenderAux fuel)) ++ [']']
    | GoVal.vObj kvs =>
      '{' :: commaJoin ((sortByKey kvs).map
        (fun kv => renderJsonStr kv.1 ++ ':' :: jsonRenderAux fuel kv.2)) ++ ['}']

/-- Render a dynamic value as JSON.  The fuel only has to dominate the
nesting depth of the value; the constant is amply larger than the depth of
any JSON document the gateway handles. -/
def jsonRender (v : GoVal) : String :=
  ⟨jsonRenderAux 1000000000 v⟩

/-- Look up a key in an association list (Go map indexing). -/
def lookupKey (kvs : List (String × α)) (k : String) : Option α :=
  match kvs.find? (fun kv => kv.1 = k) with
  | some kv => some kv.2
  | none => none

/-- Remove a key from an association list (Go delete). -/
def eraseKey (kvs : List (String × α)) (k : String) : List (String × α) :=
  kvs.filter (fun kv => ¬ kv.1 = k)

/-- Replace-or-append update of an association list (Go map assignment). -/
def putKey (kvs : List (String × α)) (k : String) (v : α) : List (String × α) :=
  match kvs with
  | [] => [(k, v)]
  | kv :: tl => if kv.1 = k then (k, v) :: tl else kv :: putKey tl k v

/-- HTTP header record of the domain model (pkg/models). -/
structure Header where
  name : String
  description : String
  required : Bool
  type : String
deriving DecidableEq, Inhabited

/-- Request parameter record; paramIn embeds the Go field named in, which is
tagged query, path or header. -/
structure Param where
  name : String
  description : String
  paramIn : String
  required : Bool
  type : String
  schema : String
deriving DecidableEq, Inhabited

/-- Request or response body record; exampleVal embeds the Go field named
Example. -/
structure Body where
  contentType : String
  schema : String
  exampleVal : String
deriving DecidableEq, Inhabited

/-- API response record. -/
structure Response where
  statusCode : Int
  description : String
  body : Option Body
deriving DecidableEq, Inhabited

/-- The HTTPInterface domain record. -/
structure HTTPInterface where
  id : String
  name : String
  description : String
  method : String
  path : String
  headers : List Header
  parameters : List Param
  requestBody : Option Body
  responses : List Response
  version : Int
  createdAt : Nat
  updatedAt : Nat
deriving DecidableEq, Inhabited

/-- Request template of a tool.  Header maps are association lists; Go
canonicalizes MIME header names on Set/Get, which no verified claim
depends on. -/
structure RequestTemplate where
  method : String
  url : String
  headers : List (String × String)
  body : String
deriving DecidableEq, Inhabited

/-- Response template of a tool. -/
structure ResponseTemplate where
  body : String
deriving DecidableEq, Inhabited

/-- A tool of an MCP server. -/
structure Tool where
  name : String
  description : String
  requestTemplate : RequestTemplate
  responseTemplate : ResponseTemplate
deriving DecidableEq, Inhabited

/-- The MCPServer domain record. -/
structure MCPServer where
  id : String
  name : String
  description : String
  allowTools : List String
  tools : List Tool
  version : Int
  status : String
  wasmPath : String
  createdAt : Nat
  updatedAt : Nat
deriving DecidableEq, Inhabited

/-- Loop body of NewMCPServerFromHTTPInterfaces: derive one tool from an
endpoint, allow it, and append it. -/
def composeToolStep (server : MCPServer) (httpInterface : HTTPInterface) : MCPServer :=
  let tool : Tool :=
    { name := httpInterface.name
      description := httpInterface.description
      requestTemplate :=
        { method := httpInterface.method
          url := httpInterface.path
          headers := []
          body := "" }
      responseTemplate := { body := "" } }
  { server with
      allowTools := server.allowTools ++ [tool.name]
      tools := server.tools ++ [tool] }

/-- NewMCPServerFromHTTPInterfaces (pkg/models/mcp_server.go): compose a
draft server at version 1, one tool per endpoint, every tool allowed. -/
def NewMCPServerFromHTTPInterfaces (name description : String)
    (interfaces : List HTTPInterface) (now : Nat) : MCPServer :=
  interfaces.foldl composeToolStep
    { id := ""
      name := name
      description := description
      allowTools := []
      tools := []
      version := 1
      status := "draft"
      wasmPath := ""
      createdAt := now
      updatedAt := now }

/-- Model of fmt.Sprintf with verb v on a dynamic value (fuel-based for the
nested lists; the constant dominates any real nesting depth).  Maps print
with sorted keys, as fmt does. -/
def goFmtAux : Nat → GoVal → List Char
  | 0, _ => []
  | fuel + 1, v =>
    match v with
    | GoVal.vNull => ['<', 'n', 'i', 'l', '>']
    | GoVal.vBool true => ['t', 'r', 'u', 'e']
    | GoVal.vBool false => ['f', 'a', 'l', 's', 'e']
    | GoVal.vNum n => intToStrList n
    | GoVal.vStr s => s.data
    | GoVal.vArr xs =>
      '[' :: List.intercalate [' '] (xs.map (goFmtAux fuel)) ++ [']']
    | GoVal.vObj kvs =>
      'm' :: 'a' :: 'p' :: '[' ::
        List.intercalate [' ']
          ((sortByKey kvs).map (fun kv => kv.1.data ++ ':' :: goFmtAux fuel kv.2))
        ++ [']']

/-- Stringification of a parameter value, fmt.Sprintf verb v. -/
def goFmt (v : GoVal) : String :=
  ⟨goFmtAux 1000000000 v⟩

/-- URL placeholder substitution loop of createRequest (pkg/mcp/service.go):
for each top-level parameter key k whose placeholder \x7bk\x7d occurs in the
current URL, replace it by the stringified value. -/
def substURL (url : String) (params : List (String × GoVal)) : String :=
  params.foldl
    (fun u kv =>
      let placeholder := "\x7b" ++ kv.1 ++ "\x7d"
      if strContains u placeholder then strReplace u placeholder (goFmt kv.2) else u)
    url

/-- Header extraction step of createRequest: a top-level headers entry is
split out only when it is a JSON object, in which case it is deleted from
the parameter map. -/
def demuxHeaders (params : List (String × GoVal)) :
    List (String × String) × List (String × GoVal) :=
  match lookupKey params "headers" with
  | some (GoVal.vObj kvs) =>
    (kvs.map (fun kv => (kv.1, goFmt kv.2)), eraseKey params "headers")
  | _ => ([], params)

/-- Body extraction step of createRequest: a top-level body entry is split
out when it is a JSON object, or a nonempty string - the string is decoded
as JSON into a map, so an object document supplies the body, a null
document decodes to a nil map and leaves the body empty, and any other
string (invalid JSON, or valid JSON of another shape) is wrapped under the
key raw; in all of those cases the entry is deleted from the parameter
map. -/
def demuxBody (params : List (String × GoVal)) :
    List (String × GoVal) × List (String × GoVal) :=
  match lookupKey params "body" with
  | some (GoVal.vObj kvs) => (kvs, eraseKey params "body")
  | some (GoVal.vStr s) =>
    if s ≠ "" then
      match parseJson s with
      | some (GoVal.vObj kvs) => (kvs, eraseKey params "body")
      | some GoVal.vNull => ([], eraseKey params "body")
      | _ => ([("raw", GoVal.vStr s)], eraseKey params "body")
    else ([], params)
  | _ => ([], params)

/-- replaceJSONParams (pkg/mcp/service.go): recursively replace placeholder
substrings inside every string of a JSON structure. -/
def replaceJSONParamsAux : Nat → GoVal → List (String × GoVal) → GoVal
  | 0, v, _ => v
  | fuel + 1, v, params =>
    match v with
    | GoVal.vStr s =>
      GoVal.vStr (params.foldl
        (fun acc kv =>
          let placeholder := "\x7b" ++ kv.1 ++ "\x7d"
          if strContains acc placeholder then strReplace acc placeholder (goFmt kv.2)
          else acc)
        s)
    | GoVal.vObj kvs =>
      GoVal.vObj (kvs.map (fun kv => (kv.1, replaceJSONParamsAux fuel kv.2 params)))
    | GoVal.vArr xs =>
      GoVal.vArr (xs.map (fun x => replaceJSONParamsAux fuel x params))
    | other => other

/-- replaceJSONParams at ample fuel. -/
def replaceJSONParams (v : GoVal) (params : List (String × GoVal)) : GoVal :=
  replaceJSONParamsAux 1000000000 v params

/-- replaceParams (pkg/mcp/service.go): valid-JSON templates are decoded,
rewritten recursively and re-marshalled; other templates get literal
placeholder substitution. -/
def replaceParams (template : String) (params : List (String × GoVal)) : String :=
  match parseJson template with
  | some v => jsonRender (replaceJSONParams v params)
  | none =>
    params.foldl
      (fun acc kv => strReplace acc ("\x7b" ++ kv.1 ++ "\x7d") (goFmt kv.2))
      template

/-- Exact-name model of http.Header.Set. -/
def headerSet (hs : List (String × String)) (k v : String) : List (String × String) :=
  putKey hs k v

/-- Exact-name model of http.Header.Get. -/
def headerGet (hs : List (String × String)) (k : String) : Option String :=
  lookupKey hs k

/-- The outbound HTTP request assembled by createRequest.  The query is kept
as the list of added pairs; Encode then sorts and percent-encodes, which no
verified claim depends on. -/
structure OutRequest where
  method : String
  url : String
  headers : List (String × String)
  body : Option String
  query : List (String × String)
deriving DecidableEq, Inhabited

/-- createRequest (pkg/mcp/service.go): URL placeholder substitution over
the incoming parameter map, then headers/body demux, body construction,
header assembly with the user overriding the template and a JSON
content-type default, and query composition from the residual parameters,
skipping keys whose placeholder occurs in the URL template. -/
def createRequest (tool : Tool) (params : List (String × GoVal)) : OutRequest :=
  let url1 := substURL tool.requestTemplate.url params
  let demuxedH := demuxHeaders params
  let userHeaders := demuxedH.1
  let params1 := demuxedH.2
  let demuxedB := demuxBody params1
  let userBody := demuxedB.1
  let params2 := demuxedB.2
  let bodyOpt : Option String :=
    if tool.requestTemplate.method ≠ "GET" then
      if ¬ userBody.isEmpty then some (jsonRender (GoVal.vObj userBody))
      else if tool.requestTemplate.body ≠ "" then
        some (replaceParams tool.requestTemplate.body params2)
      else none
    else none
  let hs0 := tool.requestTemplate.headers.foldl
    (fun acc kv => headerSet acc kv.1 kv.2) []
  let hs1 := userHeaders.foldl (fun acc kv => headerSet acc kv.1 kv.2) hs0
  let hs2 :=
    if bodyOpt.isSome && (headerGet hs1 "Content-Type").isNone then
      headerSet hs1 "Content-Type" "application/json"
    else hs1
  let query := params2.filterMap
    (fun kv =>
      if strContains tool.requestTemplate.url ("\x7b" ++ kv.1 ++ "\x7d") then none
      else some (kv.1, goFmt kv.2))
  { method := tool.requestTemplate.method
    url := url1
    headers := hs2
    body := bodyOpt
    query := query }

/-- Generic association-list lookup for integer keys (version maps). -/
def lookupKeyI (kvs : List (Int × α)) (k : Int) : Option α :=
  match kvs.find? (fun kv => kv.1 = k) with
  | some kv => some kv.2
  | none => none

/-- Replace-or-append update for integer keys. -/
def putKeyI (kvs : List (Int × α)) (k : Int) (v : α) : List (Int × α) :=
  match kvs with
  | [] => [(k, v)]
  | kv :: tl => if kv.1 = k then (k, v) :: tl else kv :: putKeyI tl k v

/-- generateID of the in-memory repositories: prefix, current date, counter.
The date component is threaded in as a parameter. -/
def generateID (pre : String) (date : String) (counter : Nat) : String :=
  pre ++ "-" ++ date ++ "-" ++ (⟨natToStrList counter⟩ : String)

/-- State of InMemoryMCPServerRepository: current servers, version snapshots
and the id counter. -/
structure MCPRepoState where
  servers : List (String × MCPServer)
  versions : List (String × List (Int × MCPServer))
  idCounter : Nat
deriving DecidableEq, Inhabited

/-- The empty MCP-server repository. -/
def mcpRepoEmpty : MCPRepoState :=
  { servers := [], versions := [], idCounter := 0 }

/-- InMemoryMCPServerRepository.Create: assign a fresh id, stamp times, set
version 1, store the server and snapshot version 1. -/
def mcpCreate (st : MCPRepoState) (server : MCPServer) (now : Nat) (date : String) :
    MCPRepoState × MCPServer :=
  let counter := st.idCounter + 1
  let sv := { server with
    id := generateID "mcp" date counter
    createdAt := now
    updatedAt := now
    version := 1 }
  let vmap := (lookupKey st.versions sv.id).getD []
  ({ servers := putKey st.servers sv.id sv
     versions := putKey st.versions sv.id (putKeyI vmap sv.version sv)
     idCounter := counter }, sv)

/-- InMemoryMCPServerRepository.GetByID (returns a clone; cloning is the
identity at the value level, aliasing is analysed separately). -/
def mcpGetByID (st : MCPRepoState) (id : String) : Option MCPServer :=
  lookupKey st.servers id

/-- InMemoryMCPServerRepository.GetAll. -/
def mcpGetAll (st : MCPRepoState) : List MCPServer :=
  st.servers.map (fun kv => kv.2)

/-- InMemoryMCPServerRepository.Update: bump the version by one, keep the
creation time, store and snapshot; none models ErrNotFound. -/
def mcpUpdate (st : MCPRepoState) (server : MCPServer) (now : Nat) :
    Option (MCPRepoState × MCPServer) :=
  match lookupKey st.servers server.id with
  | none => none
  | some existing =>
    let sv := { server with
      version := existing.version + 1
      updatedAt := now
      createdAt := existing.createdAt }
    let vmap := (lookupKey st.versions sv.id).getD []
    some ({ servers := putKey st.servers sv.id sv
            versions := putKey st.versions sv.id (putKeyI vmap sv.version sv)
            idCounter := st.idCounter }, sv)

/-- InMemoryMCPServerRepository.GetVersions. -/
def mcpGetVersions (st : MCPRepoState) (id : String) : Option (List Int) :=
  (lookupKey st.versions id).map (fun vmap => vmap.map (fun kv => kv.1))

/-- InMemoryMCPServerRepository.GetByVersion. -/
def mcpGetByVersion (st : MCPRepoState) (id : String) (version : Int) : Option MCPServer :=
  match lookupKey st.versions id with
  | none => none
  | some vmap => lookupKeyI vmap version

/-- InMemoryMCPServerRepository.UpdateStatus: overwrite the status and the
update time of the stored server in place; the version number and the
version snapshots are not touched. -/
def mcpUpdateStatus (st : MCPRepoState) (id : String) (status : String) (now : Nat) :
    Option MCPRepoState :=
  match lookupKey st.servers id with
  | none => none
  | some server =>
    some { st with
      servers := putKey st.servers id { server with status := status, updatedAt := now } }

/-- InMemoryMCPServerRepository.Delete. -/
def mcpDelete (st : MCPRepoState) (id : String) : Option MCPRepoState :=
  match lookupKey st.servers id with
  | none => none
  | some _ =>
    some { st with
      servers := eraseKey st.servers id
      versions := eraseKey st.versions id }

/-- State of InMemoryHTTPInterfaceRepository. -/
structure HTTPRepoState where
  interfaces : List (String × HTTPInterface)
  versions : List (String × List (Int × HTTPInterface))
  idCounter : Nat
deriving DecidableEq, Inhabited

/-- The empty HTTP-interface repository. -/
def httpRepoEmpty : HTTPRepoState :=
  { interfaces := [], versions := [], idCounter := 0 }

/-- InMemoryHTTPInterfaceRepository.Create. -/
def httpCreate (st : HTTPRepoState) (h : HTTPInterface) (now : Nat) (date : String) :
    HTTPRepoState × HTTPInterface :=
  let counter := st.idCounter + 1
  let hi := { h with
    id := generateID "http" date counter
    createdAt := now
    updatedAt := now
    version := 1 }
  let vmap := (lookupKey st.versions hi.id).getD []
  ({ interfaces := putKey st.interfaces hi.id hi
     versions := putKey st.versions hi.id (putKeyI vmap hi.version hi)
     idCounter := counter }, hi)

/-- InMemoryHTTPInterfaceRepository.GetByID. -/
def httpGetByID (st : HTTPRepoState) (id : String) : Option HTTPInterface :=
  lookupKey st.interfaces id

/-- InMemoryHTTPInterfaceRepository.GetAll. -/
def httpGetAll (st : HTTPRepoState) : List HTTPInterface :=
  st.interfaces.map (fun kv => kv.2)

/-- InMemoryHTTPInterfaceRepository.Update: bump the version by one, keep
the creation time, store and snapshot. -/
def httpUpdate (st : HTTPRepoState) (h : HTTPInterface) (now : Nat) :
    Option (HTTPRepoState × HTTPInterface) :=
  match lookupKey st.interfaces h.id with
  | none => none
  | some existing =>
    let hi := { h with
      version := existing.version + 1
      updatedAt := now
      createdAt := existing.createdAt }
    let vmap := (lookupKey st.versions hi.id).getD []
    some ({ interfaces := putKey st.interfaces hi.id hi
            versions := putKey st.versions hi.id (putKeyI vmap hi.version hi)
            idCounter := st.idCounter }, hi)

/-- InMemoryHTTPInterfaceRepository.GetByVersion. -/
def httpGetByVersion (st : HTTPRepoState) (id : String) (version : Int) :
    Option HTTPInterface :=
  match lookupKey st.versions id with
  | none => none
  | some vmap => lookupKeyI vmap version

/-- ValidateName (internal/api/mcp_server.go): empty names and names taken
by a different server are rejected.  The two rejection reasons are kept as
distinct constructors, mirroring the distinct error strings. -/
inductive NameCheck where
  | ok : NameCheck
  | emptyName : NameCheck
  | alreadyExists : String → NameCheck
deriving DecidableEq, Inhabited

/-- ValidateName over the repository state. -/
def validateName (st : MCPRepoState) (name excludeID : String) : NameCheck :=
  if name = "" then NameCheck.emptyName
  else if (mcpGetAll st).any (fun server => server.name = name && server.id != excludeID) then
    NameCheck.alreadyExists name
  else NameCheck.ok

/-- Outcome of the CreateMCPServer handler, together with the HTTP status it
writes. -/
inductive CreateServerResult where
  | conflictName : CreateServerResult
  | emptyName : CreateServerResult
  | missingInterface : String → CreateServerResult
  | created : MCPServer → CreateServerResult
deriving DecidableEq, Inhabited

/-- HTTP status written for each CreateMCPServer outcome. -/
def createServerStatus : CreateServerResult → Nat
  | CreateServerResult.conflictName => 400
  | CreateServerResult.emptyName => 400
  | CreateServerResult.missingInterface _ => 404
  | CreateServerResult.created _ => 201

/-- Resolve the requested interface ids in order, failing on the first
missing one. -/
def resolveInterfaces (httpSt : HTTPRepoState) : List String →
    Except String (List HTTPInterface)
  | [] => Except.ok []
  | id :: tl =>
    match httpGetByID httpSt id with
    | none => Except.error id
    | some h =>
      match resolveInterfaces httpSt tl with
      | Except.error e => Except.error e
      | Except.ok hs => Except.ok (h :: hs)

/-- CreateMCPServer (internal/api/mcp_server.go): validate the name, resolve
every interface id, compose the server, then persist it.  Nothing is stored
on any failure path. -/
def createMCPServer (mcpSt : MCPRepoState) (httpSt : HTTPRepoState)
    (name description : String) (httpIDs : List String) (now : Nat) (date : String) :
    CreateServerResult × MCPRepoState :=
  match validateName mcpSt name "" with
  | NameCheck.emptyName => (CreateServerResult.emptyName, mcpSt)
  | NameCheck.alreadyExists _ => (CreateServerResult.conflictName, mcpSt)
  | NameCheck.ok =>
    match resolveInterfaces httpSt httpIDs with
    | Except.error id => (CreateServerResult.missingInterface id, mcpSt)
    | Except.ok interfaces =>
      let server := NewMCPServerFromHTTPInterfaces name description interfaces now
      let result := mcpCreate mcpSt server now date
      (CreateServerResult.created result.2, result.1)

/-- Outcome of the UpdateMCPServer handler. -/
inductive UpdateServerResult where
  | notFound : UpdateServerResult
  | nameRejected : UpdateServerResult
  | updated : MCPServer → UpdateServerResult
deriving DecidableEq, Inhabited

/-- UpdateMCPServer (internal/api/mcp_server.go): bind the payload, force
the path id, validate the name only when it changed, then Update.  The
payload is stored as given; no containment check relates allowTools to the
tools list. -/
def updateMCPServer (st : MCPRepoState) (id : String) (payload : MCPServer) (now : Nat) :
    UpdateServerResult × MCPRepoState :=
  let server := { payload with id := id }
  match mcpGetByID st id with
  | none => (UpdateServerResult.notFound, st)
  | some existingServer =>
    if existingServer.name ≠ server.name &&
        !(validateName st server.name id = NameCheck.ok) then
      (UpdateServerResult.nameRejected, st)
    else
      match mcpUpdate st server now with
      | none => (UpdateServerResult.notFound, st)
      | some (st2, sv) => (UpdateServerResult.updated sv, st2)

/-- Outcome of the activate/deactivate handlers. -/
inductive LifecycleResult where
  | notFound : LifecycleResult
  | notActive : LifecycleResult
  | done : LifecycleResult
deriving DecidableEq, Inhabited

/-- ActivateMCPServer: fetch, register with the in-process service, then set
the status to active. -/
def activateMCPServer (st : MCPRepoState) (id : String) (now : Nat) :
    LifecycleResult × MCPRepoState :=
  match mcpGetByID st id with
  | none => (LifecycleResult.notFound, st)
  | some _ =>
    match mcpUpdateStatus st id "active" now with
    | none => (LifecycleResult.notFound, st)
    | some st2 => (LifecycleResult.done, st2)

/-- DeactivateMCPServer: only an active server may be deactivated. -/
def deactivateMCPServer (st : MCPRepoState) (id : String) (now : Nat) :
    LifecycleResult × MCPRepoState :=
  match mcpGetByID st id with
  | none => (LifecycleResult.notFound, st)
  | some server =>
    if server.status ≠ "active" then (LifecycleResult.notActive, st)
    else
      match mcpUpdateStatus st id "inactive" now with
      | none => (LifecycleResult.notFound, st)
      | some st2 => (LifecycleResult.done, st2)

/-- Outcome of the tool-invocation handlers up to the hand-off to the
invocation engine: server resolution failure (404), the status gate (400),
the allow-list gate (404), or the call into HandleToolRequest. -/
inductive InvokeOutcome where
  | serverNotFound : InvokeOutcome
  | notReady : InvokeOutcome
  | toolNotAllowed : InvokeOutcome
  | engineInvoked : String → String → List (String × GoVal) → InvokeOutcome
deriving Inhabited

/-- HTTP status written for each invocation outcome (200 stands for the
engine path, whose own result is produced downstream). -/
def invokeStatus : InvokeOutcome → Nat
  | InvokeOutcome.serverNotFound => 404
  | InvokeOutcome.notReady => 400
  | InvokeOutcome.toolNotAllowed => 404
  | InvokeOutcome.engineInvoked _ _ _ => 200

/-- InvokeTool (internal/api/mcp_server.go): resolve by id, reject inactive
servers with 400, reject tools outside allowTools with 404, then call the
engine. -/
def invokeTool (st : MCPRepoState) (id toolName : String)
    (params : List (String × GoVal)) : InvokeOutcome :=
  match mcpGetByID st id with
  | none => InvokeOutcome.serverNotFound
  | some server =>
    if server.status ≠ "active" then InvokeOutcome.notReady
    else if ¬ server.allowTools.contains toolName then InvokeOutcome.toolNotAllowed
    else InvokeOutcome.engineInvoked server.id toolName params

/-- Modelled from the spec: GetByName of the MCP-server repository.  The
method is declared in internal/repository/interfaces.go and called by the
discovery handlers, but its implementation is not among the sources; the
spec describes it as the name-keyed lookup of the catalog. -/
def mcpGetByName (st : MCPRepoState) (name : String) : Option MCPServer :=
  (mcpGetAll st).find? (fun server => server.name = name)

/-- InvokeToolMCP (internal/api/mcp_server.go): the same gates as InvokeTool
after resolving the server by public name. -/
def invokeToolMCP (st : MCPRepoState) (name toolName : String)
    (params : List (String × GoVal)) : InvokeOutcome :=
  match mcpGetByName st name with
  | none => InvokeOutcome.serverNotFound
  | some server =>
    if server.status ≠ "active" then InvokeOutcome.notReady
    else if ¬ server.allowTools.contains toolName then InvokeOutcome.toolNotAllowed
    else InvokeOutcome.engineInvoked server.id toolName params

/-- ASCII lower-casing of a character. -/
def charToLower (c : Char) : Char :=
  if 'A' ≤ c && c ≤ 'Z' then Char.ofNat (c.toNat + 32) else c

/-- ASCII upper-casing of a character. -/
def charToUpper (c : Char) : Char :=
  if 'a' ≤ c && c ≤ 'z' then Char.ofNat (c.toNat - 32) else c

/-- Model of strings.ToLower for the ASCII strings the transcoder sees. -/
def strToLower (s : String) : String :=
  ⟨s.data.map charToLower⟩

/-- Model of strings.ToUpper. -/
def strToUpper (s : String) : String :=
  ⟨s.data.map charToUpper⟩

/-- OpenAPI parameter object emitted for a stored parameter; only the type
of the stored schema string is exported, the schema annotation itself is
not consulted. -/
def paramToOpenAPI (p : Param) : GoVal :=
  GoVal.vObj
    [("name", GoVal.vStr p.name),
     ("in", GoVal.vStr p.paramIn),
     ("description", GoVal.vStr p.description),
     ("required", GoVal.vBool p.required),
     ("schema", GoVal.vObj [("type", GoVal.vStr p.type)])]

/-- OpenAPI parameter object emitted for a stored header. -/
def headerToOpenAPI (h : Header) : GoVal :=
  GoVal.vObj
    [("name", GoVal.vStr h.name),
     ("in", GoVal.vStr "header"),
     ("description", GoVal.vStr h.description),
     ("required", GoVal.vBool h.required),
     ("schema", GoVal.vObj [("type", GoVal.vStr h.type)])]

/-- Parse a stored schema string, falling back to the object type default. -/
def bodySchemaVal (b : Body) : GoVal :=
  match parseJsonObj b.schema with
  | some kvs => GoVal.vObj kvs
  | none => GoVal.vObj [("type", GoVal.vStr "object")]

/-- Parse a stored example string; a JSON null or an empty example is
omitted, an unparseable example is exported as the raw string. -/
def bodyExampleVal (b : Body) : Option GoVal :=
  if b.exampleVal = "" then none
  else
    match parseJson b.exampleVal with
    | some GoVal.vNull => none
    | some v => some v
    | none => some (GoVal.vStr b.exampleVal)

/-- The content entry emitted for a request or response body. -/
def contentEntryVal (b : Body) : GoVal :=
  GoVal.vObj
    [(b.contentType,
      GoVal.vObj
        ([("schema", bodySchemaVal b)]
          ++ (match bodyExampleVal b with
              | some e => [("example", e)]
              | none => [])))]

/-- The requestBody object emitted by the exporter. -/
def requestBodyVal (b : Body) : GoVal :=
  GoVal.vObj
    [("description", GoVal.vStr "Request body"),
     ("content", contentEntryVal b)]

/-- The response object emitted for one stored response. -/
def respObjVal (r : Response) : GoVal :=
  GoVal.vObj
    ([("description", GoVal.vStr r.description)]
      ++ (match r.body with
          | some b => [("content", contentEntryVal b)]
          | none => []))

/-- The responses map emitted by the exporter, keyed by decimal status code;
duplicate codes overwrite as Go map assignment does. -/
def responsesVal (rs : List Response) : List (String × GoVal) :=
  rs.foldl (fun acc r => putKey acc (intToStr r.statusCode) (respObjVal r)) []

/-- The operation object emitted by the exporter: summary, description and
operationId, the combined parameter array when nonempty, the request body
when present, and the responses map. -/
def operationVal (h : HTTPInterface) : List (String × GoVal) :=
  [("summary", GoVal.vStr h.description),
   ("description", GoVal.vStr h.description),
   ("operationId", GoVal.vStr h.name)]
  ++ (if h.parameters.isEmpty && h.headers.isEmpty then []
      else
        [("parameters",
          GoVal.vArr (h.parameters.map paramToOpenAPI ++ h.headers.map headerToOpenAPI))])
  ++ (match h.requestBody with
      | some b => [("requestBody", requestBodyVal b)]
      | none => [])
  ++ [("responses", GoVal.vObj (responsesVal h.responses))]

/-- ConvertToOpenAPI (pkg/models): emit an OpenAPI 3.0.0 document with a
single path entry carrying one operation. -/
def ConvertToOpenAPI (h : HTTPInterface) : GoVal :=
  GoVal.vObj
    [("openapi", GoVal.vStr "3.0.0"),
     ("info",
      GoVal.vObj
        [("title", GoVal.vStr h.name),
         ("description", GoVal.vStr h.description),
         ("version", GoVal.vStr "1.0.0")]),
     ("paths",
      GoVal.vObj
        [(h.path, GoVal.vObj [(strToLower h.method, GoVal.vObj (operationVal h))])])]

/-- View a dynamic value as an object (Go type assertion to
map[string]interface\x7b\x7d). -/
def asObj : GoVal → Option (List (String × GoVal))
  | GoVal.vObj kvs => some kvs
  | _ => none

/-- Whether a dynamic value is an object. -/
def isObjVal (v : GoVal) : Bool :=
  (asObj v).isSome

/-- Go string type assertion with the zero-value default. -/
def asStrD (kvs : List (String × GoVal)) (k : String) : String :=
  match lookupKey kvs k with
  | some (GoVal.vStr s) => s
  | _ => ""

/-- Go bool type assertion with the zero-value default. -/
def asBoolD (kvs : List (String × GoVal)) (k : String) : Bool :=
  match lookupKey kvs k with
  | some (GoVal.vBool b) => b
  | _ => false

/-- sanitizePath (pkg/models): slashes become hyphens, routing
metacharacters are removed, surrounding hyphens are trimmed and the result
is cut to 30 characters. -/
def sanitizePath (path : String) : String :=
  let step1 := path.data.map (fun c => if c = '/' then '-' else c)
  let step2 := step1.filter
    (fun c => ¬ (c = ':' || c = '\x7b' || c = '\x7d' || c = '?' || c = '&' || c = '=' || c = '*'))
  let step3 := (step2.dropWhile (fun c => c = '-')).reverse
  let step4 := (step3.dropWhile (fun c => c = '-')).reverse
  ⟨step4.take 30⟩

/-- The default schema string recorded when an imported body carries no
parseable schema. -/
def defaultSchemaStr : String :=
  "\x7b\"type\": \"object\"\x7d"

/-- Import one parameter object, adding it to the headers or the parameters
of the interface under construction. -/
def importParam (h : HTTPInterface) (paramValue : GoVal) : HTTPInterface :=
  match asObj paramValue with
  | none => h
  | some param =>
    let paramName := asStrD param "name"
    let paramIn := asStrD param "in"
    let paramDesc := asStrD param "description"
    let paramRequired := asBoolD param "required"
    let typ :=
      match lookupKey param "schema" with
      | some (GoVal.vObj schema) =>
        match lookupKey schema "type" with
        | some (GoVal.vStr t) => t
        | _ => "string"
      | _ => "string"
    if paramIn = "header" then
      { h with headers := h.headers ++
          [{ name := paramName, description := paramDesc,
             required := paramRequired, type := typ }] }
    else
      { h with parameters := h.parameters ++
          [{ name := paramName, description := paramDesc, paramIn := paramIn,
             required := paramRequired, type := typ, schema := "" }] }

/-- Import the first object-valued content entry as a body record. -/
def importContentBody (contentVal : GoVal) : Option Body :=
  match asObj contentVal with
  | none => none
  | some content =>
    match content.find? (fun kv => isObjVal kv.2) with
    | none => none
    | some kv =>
      let contentObj := (asObj kv.2).getD []
      let schemaStr :=
        match lookupKey contentObj "schema" with
        | some (GoVal.vObj schema) => jsonRender (GoVal.vObj schema)
        | _ => defaultSchemaStr
      let exampleStr :=
        match lookupKey contentObj "example" with
        | some e => jsonRender e
        | none => ""
      some { contentType := kv.1, schema := schemaStr, exampleVal := exampleStr }

/-- Import one response entry keyed by its status-code string; entries whose
key is not numeric or whose value is not an object are skipped. -/
def importResponse (h : HTTPInterface) (statusCode : String) (responseValue : GoVal) :
    HTTPInterface :=
  match asObj responseValue with
  | none => h
  | some responseObj =>
    match atoiModel statusCode with
    | none => h
    | some code =>
      let responseDesc := asStrD responseObj "description"
      let respBody :=
        match lookupKey responseObj "content" with
        | some contentVal => importContentBody contentVal
        | none => none
      { h with responses := h.responses ++
          [{ statusCode := code, description := responseDesc, body := respBody }] }

/-- The blank interface record a new import starts from: constructed name,
upper-cased method, the path, and Go zero values everywhere else. -/
def importOpBase (name description path method : String) : HTTPInterface :=
  { id := ""
    name := name ++ "-" ++ strToLower method ++ "-" ++ sanitizePath path
    description := description
    method := strToUpper method
    path := path
    headers := []
    parameters := []
    requestBody := none
    responses := []
    version := 0
    createdAt := 0
    updatedAt := 0 }

/-- The operationId block of the importer: a nonempty operationId overrides
the constructed name. -/
def applyOperationId (operation : List (String × GoVal)) (h : HTTPInterface) :
    HTTPInterface :=
  match lookupKey operation "operationId" with
  | some (GoVal.vStr opID) => if opID ≠ "" then { h with name := opID } else h
  | _ => h

/-- The parameters block of the importer: fold every entry of the parameter
array through importParam. -/
def applyParameters (operation : List (String × GoVal)) (h : HTTPInterface) :
    HTTPInterface :=
  match lookupKey operation "parameters" with
  | some (GoVal.vArr items) => items.foldl importParam h
  | _ => h

/-- The requestBody block of the importer: take the first content entry of
the request body object. -/
def applyRequestBody (operation : List (String × GoVal)) (h : HTTPInterface) :
    HTTPInterface :=
  match lookupKey operation "requestBody" with
  | some requestBodyValue =>
    match asObj requestBodyValue with
    | some requestBodyObj =>
      match lookupKey requestBodyObj "content" with
      | some contentVal => { h with requestBody := importContentBody contentVal }
      | none => h
    | none => h
  | none => h

/-- The responses block of the importer: fold every response entry through
importResponse. -/
def applyResponses (operation : List (String × GoVal)) (h : HTTPInterface) :
    HTTPInterface :=
  match lookupKey operation "responses" with
  | some (GoVal.vObj responsesMap) =>
    responsesMap.foldl (fun acc kv => importResponse acc kv.1 kv.2) h
  | _ => h

/-- Import one (path, method, operation) triple as an interface record: the
blank record runs through the operationId, parameters, requestBody and
responses blocks in source order. -/
def importOperation (name description path method : String)
    (operation : List (String × GoVal)) : HTTPInterface :=
  applyResponses operation
    (applyRequestBody operation
      (applyParameters operation
        (applyOperationId operation (importOpBase name description path method))))

/-- CreateFromOpenAPI (pkg/models): walk every path and method of the
document, importing one interface per operation; a document without a paths
object, or yielding no interface, is a parse error. -/
def CreateFromOpenAPI (name description : String) (openAPI : GoVal) :
    Except String (List HTTPInterface) :=
  match asObj openAPI with
  | none => Except.error "invalid OpenAPI format: no paths found"
  | some top =>
    match lookupKey top "paths" with
    | some (GoVal.vObj paths) =>
      let interfaces :=
        paths.foldl
          (fun acc pathEntry =>
            match asObj pathEntry.2 with
            | none => acc
            | some pathItem =>
              pathItem.foldl
                (fun acc2 methodEntry =>
                  match asObj methodEntry.2 with
                  | none => acc2
                  | some operation =>
                    acc2 ++ [importOperation name description pathEntry.1 methodEntry.1 operation])
                acc)
          []
      if interfaces.isEmpty then
        Except.error "no valid HTTP interfaces found in OpenAPI spec"
      else Except.ok interfaces
    | _ => Except.error "invalid OpenAPI format: no paths found"

/-- Maximal leading run of ASCII upper-case letters. -/
def takeUpper : List Char → List Char × List Char
  | [] => ([], [])
  | c :: tl =>
    if 'A' ≤ c && c ≤ 'Z' then
      match takeUpper tl with
      | (us, rest) => (c :: us, rest)
    else ([], c :: tl)

/-- One anchored attempt of the method regex at the current position: a
literal -X, at least one whitespace character, then a maximal nonempty run
of upper-case letters, which is the captured method. -/
def xAttempt (c : Char) (tl : List Char) : Option String :=
  if c = '-' ∧ tl.head? = some 'X' then
    let rest := tl.tail
    let ws := rest.takeWhile isWS
    let upper := takeUpper (rest.dropWhile isWS)
    if ¬ ws.isEmpty ∧ ¬ upper.1.isEmpty then some ⟨upper.1⟩ else none
  else none

/-- Leftmost match of the method regex: try an anchored attempt at every
position, left to right.  Lower-case letters never match. -/
def findXMethod : List Char → Option String
  | [] => none
  | c :: tl =>
    match xAttempt c tl with
    | some m => some m
    | none => findXMethod tl

/-- ASCII white-space trim, the model of strings.TrimSpace. -/
def strTrimSpace (s : String) : String :=
  ⟨((s.data.dropWhile isWS).reverse.dropWhile isWS).reverse⟩

/-- The clean-up step of parseCurlCommand: trim, then strip one leading
curl token. -/
def stripCurlCmd (cmd : String) : String :=
  let t := strTrimSpace cmd
  if "curl ".data.isPrefixOf t.data then ⟨t.data.drop 5⟩ else t

/-- The space-delimited data-flag test of parseCurlCommand; note that it
matches neither --data-raw nor a flag glued to its payload. -/
def hasDataSpaceFlag (s : String) : Bool :=
  strContains s " -d " || strContains s " --data "

/-- The method rule of parseCurlCommand (internal/api/http_interface.go):
the first -X match wins; otherwise GET, or POST when a space-delimited
-d or --data flag occurs. -/
def parseCurlMethod (cmd : String) : String :=
  let c := stripCurlCmd cmd
  match findXMethod c.data with
  | some m => m
  | none => if hasDataSpaceFlag c then "POST" else "GET"

/-- A tool as laid out in memory: immutable strings are kept directly and
the one mutable cell, the non-nil headers map, carries its allocation
identity. -/
structure RTool where
  name : String
  description : String
  method : String
  url : String
  body : String
  responseBody : String
  headers : Option (Nat × List (String × String))
deriving DecidableEq, Inhabited

/-- An MCP server as laid out in memory: the allowTools and tools slices
are mutable cells with allocation identities. -/
structure RMCPServer where
  id : String
  name : String
  description : String
  status : String
  version : Int
  allowTools : Nat × List String
  tools : Nat × List RTool
deriving DecidableEq, Inhabited

/-- Allocation identities reachable from a tool. -/
def rToolRefs (t : RTool) : List Nat :=
  match t.headers with
  | some p => [p.1]
  | none => []

/-- Allocation identities reachable from a server: its two slices and every
tool header map. -/
def rServerRefs (sv : RMCPServer) : List Nat :=
  sv.allowTools.1 :: sv.tools.1 :: (sv.tools.2.map rToolRefs).flatten

/-- The pure content of a tool, with allocation identities erased. -/
def rToolData (t : RTool) :
    String × String × String × String × String × String × Option (List (String × String)) :=
  (t.name, t.description, t.method, t.url, t.body, t.responseBody,
   t.headers.map (fun p => p.2))

/-- The pure content of a server, with allocation identities erased. -/
def rServerData (sv : RMCPServer) :=
  (sv.id, sv.name, sv.description, sv.status, sv.version,
   sv.allowTools.2, sv.tools.2.map rToolData)

/-- cloneMCPServer (in-memory MCP-server repository): copy the struct, then
allocate fresh slices for allowTools and tools, and a fresh map for every
non-nil tool header map.  Fresh allocations are numbered from the supplied
bound. -/
def cloneMCPServer (sv : RMCPServer) (fresh : Nat) : RMCPServer :=
  { sv with
    allowTools := (fresh, sv.allowTools.2)
    tools :=
      (fresh + 1,
        (sv.tools.2.enum).map
          (fun ti =>
            { ti.2 with
              headers := ti.2.headers.map (fun p => (fresh + 2 + ti.1, p.2)) })) }

/-- An HTTP response as laid out in memory: the optional body is a pointer
cell. -/
structure RResponse where
  statusCode : Int
  description : String
  body : Option (Nat × Body)
deriving DecidableEq, Inhabited

/-- An HTTP interface as laid out in memory: the three slices and the two
kinds of body pointer are mutable cells with allocation identities. -/
structure RHTTPInterface where
  id : String
  name : String
  description : String
  method : String
  path : String
  version : Int
  headers : Nat × List Header
  parameters : Nat × List Param
  requestBody : Option (Nat × Body)
  responses : Nat × List RResponse
deriving DecidableEq, Inhabited

/-- Allocation identities reachable from an interface.  A zero-length slice
exposes no mutable cells, so its identity is not counted: sharing it cannot
be observed through any read. -/
def rHTTPRefs (h : RHTTPInterface) : List Nat :=
  (if h.headers.2.isEmpty then [] else [h.headers.1])
    ++ (if h.parameters.2.isEmpty then [] else [h.parameters.1])
    ++ (match h.requestBody with | some p => [p.1] | none => [])
    ++ (if h.responses.2.isEmpty then [] else [h.responses.1])
    ++ (h.responses.2.map
        (fun r => match r.body with | some p => [p.1] | none => [])).flatten

/-- The pure content of a response record. -/
def rResponseData (r : RResponse) : Int × String × Option Body :=
  (r.statusCode, r.description, r.body.map (fun p => p.2))

/-- The pure content of an interface, with allocation identities erased. -/
def rHTTPData (h : RHTTPInterface) :=
  (h.id, h.name, h.description, h.method, h.path, h.version,
   h.headers.2, h.parameters.2, h.requestBody.map (fun p => p.2),
   h.responses.2.map rResponseData)

/-- cloneHTTPInterface (internal/repository/http_interface_memory.go): copy
the struct, then allocate fresh slices for nonempty headers, parameters and
responses, a fresh cell for the request body, and a fresh cell for every
response body. -/
def cloneHTTPInterface (h : RHTTPInterface) (fresh : Nat) : RHTTPInterface :=
  { h with
    headers := if h.headers.2.isEmpty then h.headers else (fresh, h.headers.2)
    parameters :=
      if h.parameters.2.isEmpty then h.parameters else (fresh + 1, h.parameters.2)
    requestBody := h.requestBody.map (fun p => (fresh + 2, p.2))
    responses :=
      if h.responses.2.isEmpty then h.responses
      else
        (fresh + 3,
          (h.responses.2.enum).map
            (fun ri =>
              { ri.2 with body := ri.2.body.map (fun p => (fresh + 4 + ri.1, p.2)) })) }

/-- Does every allowed tool name of a server name one of its tools? -/
def allowToolsSubset (sv : MCPServer) : Bool :=
  sv.allowTools.all (fun n => (sv.tools.map (fun t => t.name)).contains n)

/-- A GET tool over a templated URL, used for concrete evaluations. -/
def toolT : Tool :=
  { name := "t"
    description := ""
    requestTemplate :=
      { method := "GET"
        url := "https://api.example.com/users/\x7bid\x7d"
        headers := []
        body := "" }
    responseTemplate := { body := "" } }

/-- An active server exposing toolT. -/
def svActive : MCPServer :=
  { id := "s1", name := "gh", description := "", allowTools := ["t"],
    tools := [toolT], version := 1, status := "active", wasmPath := "",
    createdAt := 0, updatedAt := 0 }

/-- A draft server exposing toolT. -/
def svDraft : MCPServer :=
  { id := "s2", name := "dr", description := "", allowTools := ["t"],
    tools := [toolT], version := 1, status := "draft", wasmPath := "",
    createdAt := 0, updatedAt := 0 }

/-- Repository state holding one active and one draft server. -/
def stGate : MCPRepoState :=
  { servers := [("s1", svActive), ("s2", svDraft)], versions := [], idCounter := 2 }

/-- A blank server payload used to exercise Create. -/
def c5base : MCPServer :=
  { id := "", name := "x", description := "", allowTools := [], tools := [],
    version := 0, status := "draft", wasmPath := "", createdAt := 0, updatedAt := 0 }

/-- Repository state after creating c5base. -/
def c5st1 : MCPRepoState :=
  (mcpCreate mcpRepoEmpty c5base 0 "d").1

/-- Repository state after the activate status mutation. -/
def c5st2 : MCPRepoState :=
  (mcpUpdateStatus c5st1 "mcp-d-1" "active" 1).getD mcpRepoEmpty

/-- Repository state holding one draft server named x with one tool. -/
def c8st : MCPRepoState :=
  { servers := [("s1", { svDraft with id := "s1", name := "x" })]
    versions := [("s1", [(1, { svDraft with id := "s1", name := "x" })])]
    idCounter := 1 }

/-- An update payload whose allowTools names no tool at all. -/
def c8payload : MCPServer :=
  { id := "", name := "x", description := "", allowTools := ["ghost"],
    tools := [], version := 0, status := "draft", wasmPath := "",
    createdAt := 0, updatedAt := 0 }

/-- Repository state after storing the ill-formed update payload. -/
def c8st2 : MCPRepoState :=
  (updateMCPServer c8st "s1" c8payload 5).2

/-- The parameter document of the path-templating scenario: the id only
inside the body object. -/
def c1params : List (String × GoVal) :=
  [("body", GoVal.vObj [("id", GoVal.vStr "42")])]

/-- A GET tool whose URL template holds a body placeholder. -/
def c4urlTool : Tool :=
  { name := "t", description := ""
    requestTemplate :=
      { method := "GET", url := "https://api.example.com/\x7bbody\x7d",
        headers := [], body := "" }
    responseTemplate := { body := "" } }

/-- A canonical envelope: object headers, a string body holding a JSON
object, and one residual query key. -/
def c4params : List (String × GoVal) :=
  [("headers", GoVal.vObj [("A", GoVal.vStr "1")]),
   ("body", GoVal.vStr "\x7b\"k\":\"v\"\x7d"),
   ("q", GoVal.vStr "7")]

/-- An endpoint whose parameter list carries a schema annotation and a
header-tagged entry. -/
def c6endpoint : HTTPInterface :=
  { id := "h1", name := "ep", description := "dsc", method := "GET",
    path := "/users/\x7bid\x7d",
    headers := []
    parameters :=
      [{ name := "id", description := "", paramIn := "query", required := true,
         type := "integer", schema := "\x7b\"type\":\"integer\"\x7d" },
       { name := "X-Token", description := "", paramIn := "header", required := false,
         type := "string", schema := "" }]
    requestBody := none
    responses := [{ statusCode := 200, description := "ok", body := none }]
    version := 1, createdAt := 0, updatedAt := 0 }

/-- A plain endpoint with no header-tagged parameters and no schema
annotations, used to witness the round-trip law. -/
def c6plain : HTTPInterface :=
  { id := "h2", name := "users", description := "list", method := "POST",
    path := "/users",
    headers :=
      [{ name := "Accept", description := "", required := true, type := "string" }]
    parameters :=
      [{ name := "page", description := "", paramIn := "query", required := false,
         type := "integer", schema := "" }]
    requestBody :=
      some { contentType := "application/json",
             schema := "\x7b\"type\":\"object\"\x7d", exampleVal := "" }
    responses :=
      [{ statusCode := 200, description := "ok", body := none },
       { statusCode := 404, description := "missing", body := none }]
    version := 1, createdAt := 0, updatedAt := 0 }

/-- The single record produced by importing the export of c6endpoint. -/
def c6imported : HTTPInterface :=
  match CreateFromOpenAPI "n" "d" (ConvertToOpenAPI c6endpoint) with
  | Except.ok [h'] => h'
  | _ => default

/-- The stored record produced by creating c5base. -/
def c5stored : MCPServer :=
  (mcpCreate mcpRepoEmpty c5base 0 "d").2

/-- An update payload against the created record. -/
def c5payload : MCPServer :=
  { c5base with id := "mcp-d-1", description := "v2" }

/-- Repository state after updating with c5payload. -/
def c5updState : MCPRepoState :=
  ((mcpUpdate c5st1 c5payload 2).getD (mcpRepoEmpty, c5base)).1

/-- The record stored by updating with c5payload. -/
def c5updServer : MCPServer :=
  ((mcpUpdate c5st1 c5payload 2).getD (mcpRepoEmpty, c5base)).2

/-- The record stored by the ill-formed c8payload update. -/
def c8stored2 : MCPServer :=
  { c8payload with id := "s1", version := 2, updatedAt := 5, createdAt := 0 }

/-- Composition followed by persistence, the success path of the
CreateMCPServer handler. -/
def composeAndCreate (mcpSt : MCPRepoState) (name description : String)
    (ifaces : List HTTPInterface) (now : Nat) (date : String) :
    MCPRepoState × MCPServer :=
  mcpCreate mcpSt (NewMCPServerFromHTTPInterfaces name description ifaces now) now date

/-- A concrete annotated server used to witness clone freshness. -/
def c10sv : RMCPServer :=
  { id := "s1", name := "gh", description := "", status := "active", version := 1,
    allowTools := (0, ["t"]),
    tools := (1, [{ name := "t", description := "", method := "GET", url := "u",
                    body := "", responseBody := "",
                    headers := some (2, [("A", "1")]) }]) }

/-- A concrete annotated interface used to witness clone freshness. -/
def c10http : RHTTPInterface :=
  { id := "h1", name := "e", description := "", method := "GET", path := "/u",
    version := 1,
    headers := (0, [{ name := "A", description := "", required := true, type := "string" }]),
    parameters := (1, [{ name := "p", description := "", paramIn := "query",
                         required := false, type := "string", schema := "" }]),
    requestBody := some (2, { contentType := "application/json", schema := "s",
                              exampleVal := "" }),
    responses := (3, [{ statusCode := 200, description := "",
                        body := some (4, { contentType := "application/json",
                                           schema := "s", exampleVal := "" }) }]) }

theorem lookupKey_cons (kv : String × α) (tl : List (String × α)) (k : String) :
    lookupKey (kv :: tl) k = if kv.1 = k then some kv.2 else lookupKey tl k := by
  by_cases h : kv.1 = k <;> simp [lookupKey, List.find?_cons, h]

theorem eraseKey_cons (kv : String × α) (tl : List (String × α)) (k : String) :
    eraseKey (kv :: tl) k = if kv.1 = k then eraseKey tl k else kv :: eraseKey tl k := by
  by_cases h : kv.1 = k <;> simp [eraseKey, List.filter_cons, h]

theorem lookupKeyI_cons (kv : Int × α) (tl : List (Int × α)) (k : Int) :
    lookupKeyI (kv :: tl) k = if kv.1 = k then some kv.2 else lookupKeyI tl k := by
  by_cases h : kv.1 = k <;> simp [lookupKeyI, List.find?_cons, h]

theorem lookupKey_eraseKey_self (kvs : List (String × α)) (k : String) :
    lookupKey (eraseKey kvs k) k = none := by
  induction kvs with
  | nil => rfl
  | cons kv tl ih =>
    rw [eraseKey_cons]
    by_cases hk : kv.1 = k
    · simpa [hk] using ih
    · rw [if_neg hk, lookupKey_cons, if_neg hk]
      exact ih

theorem lookupKey_eraseKey_ne (kvs : List (String × α)) (k k' : String) (h : ¬ k' = k) :
    lookupKey (eraseKey kvs k) k' = lookupKey kvs k' := by
  induction kvs with
  | nil => rfl
  | cons kv tl ih =>
    rw [eraseKey_cons, lookupKey_cons]
    by_cases hk : kv.1 = k
    · have hne : ¬ kv.1 = k' := fun hk' => h ((hk'.symm.trans hk))
      rw [if_pos hk, if_neg hne]
      exact ih
    · rw [if_neg hk, lookupKey_cons]
      by_cases hk' : kv.1 = k'
      · rw [if_pos hk', if_pos hk']
      · rw [if_neg hk', if_neg hk']
        exact ih

theorem lookupKey_putKey_self (kvs : List (String × α)) (k : String) (v : α) :
    lookupKey (putKey kvs k v) k = some v := by
  induction kvs with
  | nil => simp [putKey, lookupKey, List.find?]
  | cons kv tl ih =>
    by_cases hk : kv.1 = k
    · simp [putKey, hk, lookupKey_cons]
    · rw [putKey, if_neg hk, lookupKey_cons, if_neg hk]
      exact ih

theorem lookupKey_putKey_ne (kvs : List (String × α)) (k k' : String) (v : α)
    (h : ¬ k' = k) :
    lookupKey (putKey kvs k v) k' = lookupKey kvs k' := by
  induction kvs with
  | nil =>
    have hne : ¬ k = k' := fun hk => h hk.symm
    simp [putKey, lookupKey, List.find?, hne]
  | cons kv tl ih =>
    by_cases hk : kv.1 = k
    · have hne : ¬ k = k' := fun hk' => h hk'.symm
      have hne2 : ¬ kv.1 = k' := fun hk' => h (hk'.symm.trans hk)
      rw [putKey, if_pos hk, lookupKey_cons, lookupKey_cons]
      simp only [if_neg hne, if_neg hne2]
    · rw [putKey, if_neg hk, lookupKey_cons, lookupKey_cons]
      by_cases hk' : kv.1 = k'
      · simp only [if_pos hk']
      · simp only [if_neg hk']
        exact ih

theorem lookupKeyI_putKeyI_self (kvs : List (Int × α)) (k : Int) (v : α) :
    lookupKeyI (putKeyI kvs k v) k = some v := by
  induction kvs with
  | nil => simp [putKeyI, lookupKeyI, List.find?]
  | cons kv tl ih =>
    by_cases hk : kv.1 = k
    · simp [putKeyI, hk, lookupKeyI_cons]
    · rw [putKeyI, if_neg hk, lookupKeyI_cons, if_neg hk]
      exact ih

theorem lookupKeyI_putKeyI_ne (kvs : List (Int × α)) (k k' : Int) (v : α)
    (h : ¬ k' = k) :
    lookupKeyI (putKeyI kvs k v) k' = lookupKeyI kvs k' := by
  induction kvs with
  | nil =>
    have hne : ¬ k = k' := fun hk => h hk.symm
    simp [putKeyI, lookupKeyI, List.find?, hne]
  | cons kv tl ih =>
    by_cases hk : kv.1 = k
    · have hne : ¬ k = k' := fun hk' => h hk'.symm
      have hne2 : ¬ kv.1 = k' := fun hk' => h (hk'.symm.trans hk)
      rw [putKeyI, if_pos hk, lookupKeyI_cons, lookupKeyI_cons]
      simp only [if_neg hne, if_neg hne2]
    · rw [putKeyI, if_neg hk, lookupKeyI_cons, lookupKeyI_cons]
      by_cases hk' : kv.1 = k'
      · simp only [if_pos hk']
      · simp only [if_neg hk']
        exact ih

/-- C2: status gate and allow-list on invocation.  For a resolved server,
both invocation handlers reject a non-active server with the 400 not-ready
outcome, reject a tool outside allowTools with the 404 outcome, and hand
requests passing both gates - and only those - to the invocation engine. -/
theorem c2_status_gate (st : MCPRepoState) (id name toolName : String)
    (params : List (String × GoVal)) (server server' : MCPServer)
    (hid : mcpGetByID st id = some server)
    (hname : mcpGetByName st name = some server') :
    (server.status ≠ "active" → invokeTool st id toolName params = InvokeOutcome.notReady) ∧
    (server.status = "active" → server.allowTools.contains toolName = false →
      invokeTool st id toolName params = InvokeOutcome.toolNotAllowed) ∧
    (server.status = "active" → server.allowTools.contains toolName = true →
      invokeTool st id toolName params
        = InvokeOutcome.engineInvoked server.id toolName params) ∧
    (server'.status ≠ "active" →
      invokeToolMCP st name toolName params = InvokeOutcome.notReady) ∧
    (server'.status = "active" → server'.allowTools.contains toolName = false →
      invokeToolMCP st name toolName params = InvokeOutcome.toolNotAllowed) ∧
    (server'.status = "active" → server'.allowTools.contains toolName = true →
      invokeToolMCP st name toolName params
        = InvokeOutcome.engineInvoked server'.id toolName params) := by
  refine ⟨?_, ?_, ?_, ?_, ?_, ?_⟩
  · intro h1
    simp [invokeTool, hid, h1]
  · intro h1 h2
    simp [invokeTool, hid, h1, h2]
    simpa using h2
  · intro h1 h2
    simp [invokeTool, hid, h1, h2]
    simpa using h2
  · intro h1
    simp [invokeToolMCP, hname, h1]
  · intro h1 h2
    simp [invokeToolMCP, hname, h1, h2]
    simpa using h2
  · intro h1 h2
    simp [invokeToolMCP, hname, h1, h2]
    simpa using h2

/-- Witness for c2_status_gate at the two-server repository stGate. -/
theorem c2_status_gate_witness :
    invokeTool stGate "s2" "t" [] = InvokeOutcome.notReady ∧
    invokeTool stGate "s1" "x" [] = InvokeOutcome.toolNotAllowed ∧
    invokeTool stGate "s1" "t" [] = InvokeOutcome.engineInvoked "s1" "t" [] ∧
    invokeToolMCP stGate "dr" "t" [] = InvokeOutcome.notReady :=
  ⟨(c2_status_gate stGate "s2" "dr" "t" [] svDraft svDraft rfl rfl).1 (by decide),
   (c2_status_gate stGate "s1" "gh" "x" [] svActive svActive rfl rfl).2.1 (by decide) (by decide),
   (c2_status_gate stGate "s1" "gh" "t" [] svActive svActive rfl rfl).2.2.1 (by decide) (by decide),
   (c2_status_gate stGate "s1" "dr" "t" [] svActive svDraft rfl rfl).2.2.2.1 (by decide)⟩

theorem goFmt_vStr (s : String) : goFmt (GoVal.vStr s) = s := rfl

/-- C1 counterexample: for the endpoint URL with an id placeholder, the
parameter document nesting the id inside body leaves the placeholder
literal; the outbound URL is not the substituted one the spec claims. -/
theorem c1_counterexample :
    (createRequest toolT c1params).url = "https://api.example.com/users/\x7bid\x7d" ∧
    ("https://api.example.com/users/\x7bid\x7d" : String)
      ≠ "https://api.example.com/users/42" := by
  constructor
  · decide
  · decide

/-- C1 amended: URL substitution draws only on top-level keys of the
parameter document.  Keys inside the body object are never consulted, so a
body-only document leaves the template URL unchanged; a top-level key whose
placeholder occurs in the template is substituted with its stringified
value and is excluded from the query string. -/
theorem c1_url_substitution (tool : Tool) (b : List (String × GoVal)) (k v : String) :
    (strContains tool.requestTemplate.url "\x7bbody\x7d" = false →
      (createRequest tool [("body", GoVal.vObj b)]).url = tool.requestTemplate.url) ∧
    (k ≠ "headers" → k ≠ "body" →
      strContains tool.requestTemplate.url ("\x7b" ++ k ++ "\x7d") = true →
      (createRequest tool [(k, GoVal.vStr v)]).url
          = strReplace tool.requestTemplate.url ("\x7b" ++ k ++ "\x7d") v ∧
        (createRequest tool [(k, GoVal.vStr v)]).query = []) := by
  constructor
  · intro hb
    simp [createRequest, substURL, hb]
  · intro hk1 hk2 hku
    have hh : lookupKey [(k, GoVal.vStr v)] "headers" = none := by
      simp [lookupKey, List.find?, hk1]
    have hb : lookupKey [(k, GoVal.vStr v)] "body" = none := by
      simp [lookupKey, List.find?, hk2]
    constructor
    · simp [createRequest, substURL, hku, demuxHeaders, demuxBody, hh, hb, goFmt_vStr]
    · simp [createRequest, demuxHeaders, demuxBody, hh, hb, List.filterMap, hku]

/-- Witness for c1_url_substitution: the body-only document leaves toolT's
URL literal, and the top-level document substitutes it. -/
theorem c1_url_substitution_witness :
    (createRequest toolT c1params).url = "https://api.example.com/users/\x7bid\x7d" ∧
    (createRequest toolT [("id", GoVal.vStr "42")]).url
      = "https://api.example.com/users/42" ∧
    (createRequest toolT [("id", GoVal.vStr "42")]).query = [] := by
  refine ⟨?_, ?_, ?_⟩
  · have h := (c1_url_substitution toolT [("id", GoVal.vStr "42")] "id" "42").1 (by decide)
    exact h.trans (by decide)
  · have h := ((c1_url_substitution toolT [] "id" "42").2
      (by decide) (by decide) (by decide)).1
    exact h.trans (by decide)
  · exact ((c1_url_substitution toolT [] "id" "42").2 (by decide) (by decide) (by decide)).2

/-- A key with no binding in an association list heads no entry of it. -/
theorem lookupKey_none_keys (l : List (String × α)) (k : String)
    (h : lookupKey l k = none) : ∀ kv ∈ l, ¬ kv.1 = k := by
  induction l with
  | nil => intro kv hkv; simp at hkv
  | cons hd tl ih =>
    intro kv hkv
    rw [lookupKey_cons] at h
    by_cases hh : hd.1 = k
    · rw [if_pos hh] at h
      exact absurd h (by simp)
    · rw [if_neg hh] at h
      rcases List.mem_cons.1 hkv with h1 | h1
      · rw [h1]; exact hh
      · exact ih h kv h1

/-- Erasing any key preserves the absence of a binding. -/
theorem lookupKey_eraseKey_none (l : List (String × α)) (k k' : String)
    (h : lookupKey l k = none) : lookupKey (eraseKey l k') k = none := by
  by_cases hk : k = k'
  · rw [hk]
    exact lookupKey_eraseKey_self l k'
  · rw [lookupKey_eraseKey_ne l k' k hk]
    exact h

/-- The residual of the headers demux is the input or the input minus the
headers key. -/
theorem demuxHeaders_snd_cases (l : List (String × GoVal)) :
    (demuxHeaders l).2 = l ∨ (demuxHeaders l).2 = eraseKey l "headers" := by
  rcases hl : lookupKey l "headers" with _ | v
  · left; simp [demuxHeaders, hl]
  · cases v
    case vObj kvs => right; simp [demuxHeaders, hl]
    all_goals left; simp [demuxHeaders, hl]

/-- The residual of the body demux is the input or the input minus the
body key. -/
theorem demuxBody_snd_cases (l : List (String × GoVal)) :
    (demuxBody l).2 = l ∨ (demuxBody l).2 = eraseKey l "body" := by
  rcases hl : lookupKey l "body" with _ | v
  · left; simp [demuxBody, hl]
  · cases v
    case vObj kvs => right; simp [demuxBody, hl]
    case vStr s =>
      by_cases hs : s = ""
      · left; simp [demuxBody, hl, hs]
      · rcases hp : parseJson s with _ | w
        · right; simp [demuxBody, hl, hs, hp]
        · cases w <;> right <;> simp [demuxBody, hl, hs, hp]
    all_goals left; simp [demuxBody, hl]

/-- Every key of the query string heads an entry of the residual map left
by the two demux steps. -/
theorem mem_query_key (tool : Tool) (params : List (String × GoVal)) (k x : String)
    (h : (k, x) ∈ (createRequest tool params).query) :
    ∃ kv ∈ (demuxBody (demuxHeaders params).2).2, kv.1 = k := by
  have h2 : (k, x) ∈ (demuxBody (demuxHeaders params).2).2.filterMap
      (fun kv =>
        if strContains tool.requestTemplate.url ("\x7b" ++ kv.1 ++ "\x7d") then none
        else some (kv.1, goFmt kv.2)) := h
  rcases List.mem_filterMap.1 h2 with ⟨kv, hmem, hf⟩
  by_cases hc : strContains tool.requestTemplate.url ("\x7b" ++ kv.1 ++ "\x7d")
  · rw [if_pos hc] at hf
    exact absurd hf (by simp)
  · rw [if_neg hc] at hf
    exact ⟨kv, hmem, congrArg Prod.fst (Option.some.inj hf)⟩

/-- A residual entry whose placeholder is absent from the URL template is
emitted as a query parameter. -/
theorem mem_query_of_residual (tool : Tool) (params : List (String × GoVal))
    (kv : String × GoVal) (hmem : kv ∈ (demuxBody (demuxHeaders params).2).2)
    (hc : strContains tool.requestTemplate.url ("\x7b" ++ kv.1 ++ "\x7d") = false) :
    (kv.1, goFmt kv.2) ∈ (createRequest tool params).query := by
  show (kv.1, goFmt kv.2) ∈ (demuxBody (demuxHeaders params).2).2.filterMap
      (fun kv =>
        if strContains tool.requestTemplate.url ("\x7b" ++ kv.1 ++ "\x7d") then none
        else some (kv.1, goFmt kv.2))
  exact List.mem_filterMap.2 ⟨kv, hmem, by simp [hc]⟩

/-- A key without a binding in the residual map never appears in the query
string. -/
theorem not_mem_query_of_none (tool : Tool) (params : List (String × GoVal))
    (k : String) (h : lookupKey (demuxBody (demuxHeaders params).2).2 k = none)
    (x : String) : ¬ (k, x) ∈ (createRequest tool params).query := by
  intro hmem
  rcases mem_query_key tool params k x hmem with ⟨kv, hkv, hk⟩
  exact lookupKey_none_keys _ k h kv hkv hk

/-- C4 counterexample: a top-level headers entry that is not an object is
neither split out nor removed; it stays in the residual map and is emitted
as a query parameter.  Moreover URL templating runs on the document before
the demux, so a body placeholder in the URL template is filled from the
body entry, contradicting the claimed unconditional partition and the
claimed isolation of the URL templating step. -/
theorem c4_counterexample :
    (lookupKey (demuxHeaders [("headers", GoVal.vStr "x")]).2 "headers").isSome = true ∧
    (createRequest toolT [("headers", GoVal.vStr "x")]).query = [("headers", "x")] ∧
    (createRequest c4urlTool [("body", GoVal.vStr "42")]).url
      = "https://api.example.com/42" := by
  refine ⟨rfl, rfl, by decide⟩

/-- C4 amended: the demux splits by value shape.  A top-level headers entry
is split out and removed exactly when it is a JSON object; a top-level
body entry exactly when it is a JSON object or a nonempty string, a string
being decoded as JSON - an object supplies the body, null leaves it empty,
anything else is wrapped under the key raw.  A key the demux removes never
reaches the query string, a residual entry whose placeholder is absent
from the URL template is emitted as a query parameter, and URL templating
is applied to the document before the demux. -/
theorem c4_demux_partition (tool : Tool) (params q : List (String × GoVal))
    (hkvs bkvs : List (String × GoVal)) (s : String) (kv : String × GoVal) :
    (lookupKey params "headers" = some (GoVal.vObj hkvs) →
      demuxHeaders params
        = (hkvs.map (fun p => (p.1, goFmt p.2)), eraseKey params "headers")) ∧
    ((∀ kvs, ¬ lookupKey params "headers" = some (GoVal.vObj kvs)) →
      demuxHeaders params = ([], params)) ∧
    (lookupKey q "body" = some (GoVal.vObj bkvs) →
      demuxBody q = (bkvs, eraseKey q "body")) ∧
    (lookupKey q "body" = some (GoVal.vStr s) → ¬ s = "" →
      (demuxBody q).2 = eraseKey q "body" ∧
      (parseJson s = some (GoVal.vObj bkvs) → (demuxBody q).1 = bkvs) ∧
      (parseJson s = some GoVal.vNull → (demuxBody q).1 = []) ∧
      ((∀ kvs, ¬ parseJson s = some (GoVal.vObj kvs)) →
        ¬ parseJson s = some GoVal.vNull →
        (demuxBody q).1 = [("raw", GoVal.vStr s)])) ∧
    ((∀ kvs, ¬ lookupKey q "body" = some (GoVal.vObj kvs)) →
      (∀ s1, ¬ s1 = "" → ¬ lookupKey q "body" = some (GoVal.vStr s1)) →
      demuxBody q = ([], q)) ∧
    (lookupKey params "headers" = some (GoVal.vObj hkvs) →
      ∀ x, ¬ ("headers", x) ∈ (createRequest tool params).query) ∧
    (lookupKey (demuxHeaders params).2 "body" = some (GoVal.vObj bkvs) →
      ∀ x, ¬ ("body", x) ∈ (createRequest tool params).query) ∧
    (lookupKey (demuxHeaders params).2 "body" = some (GoVal.vStr s) → ¬ s = "" →
      ∀ x, ¬ ("body", x) ∈ (createRequest tool params).query) ∧
    (kv ∈ (demuxBody (demuxHeaders params).2).2 →
      strContains tool.requestTemplate.url ("\x7b" ++ kv.1 ++ "\x7d") = false →
      (kv.1, goFmt kv.2) ∈ (createRequest tool params).query) ∧
    (createRequest tool params).url = substURL tool.requestTemplate.url params := by
  refine ⟨?_, ?_, ?_, ?_, ?_, ?_, ?_, ?_, ?_, rfl⟩
  · intro h
    simp [demuxHeaders, h]
  · intro h
    rcases hl : lookupKey params "headers" with _ | v
    · simp [demuxHeaders, hl]
    · cases v
      case vObj kvs => exact absurd hl (h kvs)
      all_goals simp [demuxHeaders, hl]
  · intro h
    simp [demuxBody, h]
  · intro h hs
    refine ⟨?_, ?_, ?_, ?_⟩
    · rcases hp : parseJson s with _ | w
      · simp [demuxBody, h, hs, hp]
      · cases w <;> simp [demuxBody, h, hs, hp]
    · intro hp
      simp [demuxBody, h, hs, hp]
    · intro hp
      simp [demuxBody, h, hs, hp]
    · intro h1 h2
      rcases hp : parseJson s with _ | w
      · simp [demuxBody, h, hs, hp]
      · cases w
        case vObj kvs => exact absurd hp (h1 kvs)
        case vNull => exact absurd hp h2
        all_goals simp [demuxBody, h, hs, hp]
  · intro h1 h2
    rcases hl : lookupKey q "body" with _ | v
    · simp [demuxBody, hl]
    · cases v
      case vObj kvs => exact absurd hl (h1 kvs)
      case vStr s1 =>
        by_cases hs1 : s1 = ""
        · simp [demuxBody, hl, hs1]
        · exact absurd hl (h2 s1 hs1)
      all_goals simp [demuxBody, hl]
  · intro h x
    have hh : (demuxHeaders params).2 = eraseKey params "headers" := by
      simp [demuxHeaders, h]
    have h1 : lookupKey (demuxHeaders params).2 "headers" = none := by
      rw [hh]
      exact lookupKey_eraseKey_self params "headers"
    have hn : lookupKey (demuxBody (demuxHeaders params).2).2 "headers" = none := by
      rcases demuxBody_snd_cases (demuxHeaders params).2 with hc | hc <;> rw [hc]
      · exact h1
      · exact lookupKey_eraseKey_none _ _ _ h1
    exact not_mem_query_of_none tool params "headers" hn x
  · intro h x
    have h2 : (demuxBody (demuxHeaders params).2).2
        = eraseKey (demuxHeaders params).2 "body" := by
      simp [demuxBody, h]
    have hn : lookupKey (demuxBody (demuxHeaders params).2).2 "body" = none := by
      rw [h2]
      exact lookupKey_eraseKey_self _ "body"
    exact not_mem_query_of_none tool params "body" hn x
  · intro h hs x
    have h2 : (demuxBody (demuxHeaders params).2).2
        = eraseKey (demuxHeaders params).2 "body" := by
      rcases hp : parseJson s with _ | w
      · simp [demuxBody, h, hs, hp]
      · cases w <;> simp [demuxBody, h, hs, hp]
    have hn : lookupKey (demuxBody (demuxHeaders params).2).2 "body" = none := by
      rw [h2]
      exact lookupKey_eraseKey_self _ "body"
    exact not_mem_query_of_none tool params "body" hn x
  · intro hmem hc
    exact mem_query_of_residual tool params kv hmem hc

/-- Witness for c4_demux_partition on the canonical envelope: the object
headers entry is split out, the string body entry is decoded and removed,
the removed keys are absent from the query string and the residual key is
emitted into it. -/
theorem c4_demux_partition_witness :
    demuxHeaders c4params
      = ([("A", GoVal.vStr "1")].map (fun p => (p.1, goFmt p.2)),
         eraseKey c4params "headers") ∧
    (demuxBody (demuxHeaders c4params).2).2
      = eraseKey (demuxHeaders c4params).2 "body" ∧
    (demuxBody (demuxHeaders c4params).2).1 = [("k", GoVal.vStr "v")] ∧
    ¬ ("headers", "1") ∈ (createRequest toolT c4params).query ∧
    ¬ ("body", "\x7b\"k\":\"v\"\x7d") ∈ (createRequest toolT c4params).query ∧
    ("q", goFmt (GoVal.vStr "7")) ∈ (createRequest toolT c4params).query := by
  have h := c4_demux_partition toolT c4params (demuxHeaders c4params).2
    [("A", GoVal.vStr "1")] [("k", GoVal.vStr "v")] "\x7b\"k\":\"v\"\x7d"
    ("q", GoVal.vStr "7")
  refine ⟨h.1 rfl, (h.2.2.2.1 rfl (by decide)).1,
    (h.2.2.2.1 rfl (by decide)).2.1 rfl,
    h.2.2.2.2.2.1 rfl "1",
    h.2.2.2.2.2.2.2.1 rfl (by decide) "\x7b\"k\":\"v\"\x7d",
    h.2.2.2.2.2.2.2.2.1 ?_ (by decide)⟩
  exact List.Mem.head _

/-- C5 counterexample: after creating a server at version 1, the status
mutation activate leaves the version at 1 instead of the claimed old
version plus one, and records no new snapshot. -/
theorem c5_counterexample :
    (mcpGetByID c5st1 "mcp-d-1").map (fun s => s.version) = some 1 ∧
    mcpUpdateStatus c5st1 "mcp-d-1" "active" 1 = some c5st2 ∧
    (mcpGetByID c5st2 "mcp-d-1").map (fun s => s.version) = some 1 ∧
    ¬ (mcpGetByID c5st2 "mcp-d-1").map (fun s => s.version) = some (1 + 1) ∧
    mcpGetByVersion c5st2 "mcp-d-1" 2 = none := by
  refine ⟨by decide, by decide, by decide, by decide, by decide⟩

/-- C5 amended: the full-record Update of either in-memory repository bumps
the version by exactly one, snapshots the new version, and leaves every
other version snapshot retrievable; the UpdateStatus mutation used by
activate and deactivate leaves the version number and all snapshots
untouched. -/
theorem c5_version_monotonicity (st st2 st3 : MCPRepoState) (hst hst2 : HTTPRepoState)
    (server existing sv2 sv0 : MCPServer) (h hext h2 h0 : HTTPInterface)
    (now : Nat) (v : Int) (status id : String) :
    (lookupKey st.servers server.id = some existing →
      mcpUpdate st server now = some (st2, sv2) →
      sv2.version = existing.version + 1 ∧
      mcpGetByVersion st2 server.id sv2.version = some sv2) ∧
    (mcpUpdate st server now = some (st2, sv2) → ¬ v = sv2.version →
      mcpGetByVersion st server.id v = some sv0 →
      mcpGetByVersion st2 server.id v = some sv0) ∧
    (lookupKey hst.interfaces h.id = some hext →
      httpUpdate hst h now = some (hst2, h2) →
      h2.version = hext.version + 1 ∧
      httpGetByVersion hst2 h.id h2.version = some h2) ∧
    (httpUpdate hst h now = some (hst2, h2) → ¬ v = h2.version →
      httpGetByVersion hst h.id v = some h0 →
      httpGetByVersion hst2 h.id v = some h0) ∧
    (mcpUpdateStatus st id status now = some st3 →
      (mcpGetByID st3 id).map (fun s => s.version)
        = (mcpGetByID st id).map (fun s => s.version) ∧
      mcpGetByVersion st3 id v = mcpGetByVersion st id v) := by
  refine ⟨?_, ?_, ?_, ?_, ?_⟩
  · intro hex hupd
    simp only [mcpUpdate, hex, Option.some.injEq, Prod.mk.injEq] at hupd
    obtain ⟨hst2eq, hsv2eq⟩ := hupd
    subst hst2eq
    subst hsv2eq
    refine ⟨rfl, ?_⟩
    simp [mcpGetByVersion, lookupKey_putKey_self, lookupKeyI_putKeyI_self]
  · intro hupd hne hold
    rcases hv : lookupKey st.versions server.id with _ | vmap
    · simp [mcpGetByVersion, hv] at hold
    · simp only [mcpGetByVersion, hv] at hold
      rcases hex : lookupKey st.servers server.id with _ | exo
      · simp [mcpUpdate, hex] at hupd
      · simp only [mcpUpdate, hex, Option.some.injEq, Prod.mk.injEq] at hupd
        obtain ⟨hst2eq, hsv2eq⟩ := hupd
        subst hst2eq
        have hvne : ¬ v = sv2.version := hne
        subst hsv2eq
        simp only [mcpGetByVersion, lookupKey_putKey_self, hv, Option.getD_some]
        rw [lookupKeyI_putKeyI_ne _ _ _ _ hvne]
        exact hold
  · intro hex hupd
    simp only [httpUpdate, hex, Option.some.injEq, Prod.mk.injEq] at hupd
    obtain ⟨hst2eq, hsv2eq⟩ := hupd
    subst hst2eq
    subst hsv2eq
    refine ⟨rfl, ?_⟩
    simp [httpGetByVersion, lookupKey_putKey_self, lookupKeyI_putKeyI_self]
  · intro hupd hne hold
    rcases hv : lookupKey hst.versions h.id with _ | vmap
    · simp [httpGetByVersion, hv] at hold
    · simp only [httpGetByVersion, hv] at hold
      rcases hex : lookupKey hst.interfaces h.id with _ | exo
      · simp [httpUpdate, hex] at hupd
      · simp only [httpUpdate, hex, Option.some.injEq, Prod.mk.injEq] at hupd
        obtain ⟨hst2eq, hsv2eq⟩ := hupd
        subst hst2eq
        have hvne : ¬ v = h2.version := hne
        subst hsv2eq
        simp only [httpGetByVersion, lookupKey_putKey_self, hv, Option.getD_some]
        rw [lookupKeyI_putKeyI_ne _ _ _ _ hvne]
        exact hold
  · intro hupd
    rcases hl : lookupKey st.servers id with _ | sv1
    · simp [mcpUpdateStatus, hl] at hupd
    · simp only [mcpUpdateStatus, hl, Option.some.injEq] at hupd
      subst hupd
      refine ⟨?_, rfl⟩
      simp [mcpGetByID, lookupKey_putKey_self, hl]

/-- Witness for c5_version_monotonicity on the concrete one-server
repository: the update bumps version 1 to 2, snapshots version 2, keeps
snapshot 1, and the activate mutation changes no version. -/
theorem c5_version_monotonicity_witness :
    (c5updServer.version = c5stored.version + 1 ∧
      mcpGetByVersion c5updState c5payload.id c5updServer.version = some c5updServer) ∧
    mcpGetByVersion c5updState c5payload.id 1 = some c5stored ∧
    ((mcpGetByID c5st2 "mcp-d-1").map (fun s => s.version)
        = (mcpGetByID c5st1 "mcp-d-1").map (fun s => s.version) ∧
      mcpGetByVersion c5st2 "mcp-d-1" 1 = mcpGetByVersion c5st1 "mcp-d-1" 1) :=
  ⟨(c5_version_monotonicity c5st1 c5updState c5st2 httpRepoEmpty httpRepoEmpty
      c5payload c5stored c5updServer c5stored default default default default
      2 1 "active" "mcp-d-1").1 (by decide) (by decide),
   (c5_version_monotonicity c5st1 c5updState c5st2 httpRepoEmpty httpRepoEmpty
      c5payload c5stored c5updServer c5stored default default default default
      2 1 "active" "mcp-d-1").2.1 (by decide) (by decide) (by decide),
   (c5_version_monotonicity c5st1 c5updState c5st2 httpRepoEmpty httpRepoEmpty
      c5payload c5stored c5updServer c5stored default default default default
      1 1 "active" "mcp-d-1").2.2.2.2 (by decide)⟩

theorem foldl_composeToolStep_version (l : List HTTPInterface) (init : MCPServer) :
    (List.foldl composeToolStep init l).version = init.version := by
  induction l generalizing init with
  | nil => rfl
  | cons hd tl ih => simpa [composeToolStep] using ih _

theorem foldl_composeToolStep_status (l : List HTTPInterface) (init : MCPServer) :
    (List.foldl composeToolStep init l).status = init.status := by
  induction l generalizing init with
  | nil => rfl
  | cons hd tl ih => simpa [composeToolStep] using ih _

theorem foldl_composeToolStep_allow (l : List HTTPInterface) (init : MCPServer)
    (hinit : init.allowTools = init.tools.map (fun t => t.name)) :
    (List.foldl composeToolStep init l).allowTools
      = (List.foldl composeToolStep init l).tools.map (fun t => t.name) := by
  induction l generalizing init with
  | nil => exact hinit
  | cons hd tl ih =>
    refine ih _ ?_
    simp [composeToolStep, hinit]

/-- C7: server-name collision atomicity.  A duplicate name fails with the
distinguished conflict outcome carrying HTTP 400 and leaves the repository
untouched; a missing endpoint id fails with 404 and leaves it untouched;
when composition succeeds, a version-1 draft server is stored and the
stored map changes only by the new entry. -/
theorem c7_create_collision (mcpSt : MCPRepoState) (httpSt : HTTPRepoState)
    (name desc : String) (ids : List String) (now : Nat) (date : String)
    (mid : String) (ifaces : List HTTPInterface) :
    (validateName mcpSt name "" = NameCheck.alreadyExists name →
      createMCPServer mcpSt httpSt name desc ids now date
        = (CreateServerResult.conflictName, mcpSt) ∧
      createServerStatus CreateServerResult.conflictName = 400) ∧
    (validateName mcpSt name "" = NameCheck.ok →
      resolveInterfaces httpSt ids = Except.error mid →
      createMCPServer mcpSt httpSt name desc ids now date
        = (CreateServerResult.missingInterface mid, mcpSt) ∧
      createServerStatus (CreateServerResult.missingInterface mid) = 404) ∧
    (validateName mcpSt name "" = NameCheck.ok →
      resolveInterfaces httpSt ids = Except.ok ifaces →
      createMCPServer mcpSt httpSt name desc ids now date
        = (CreateServerResult.created (composeAndCreate mcpSt name desc ifaces now date).2,
           (composeAndCreate mcpSt name desc ifaces now date).1) ∧
      (composeAndCreate mcpSt name desc ifaces now date).2.version = 1 ∧
      (composeAndCreate mcpSt name desc ifaces now date).2.status = "draft" ∧
      mcpGetByID (composeAndCreate mcpSt name desc ifaces now date).1
          (composeAndCreate mcpSt name desc ifaces now date).2.id
        = some (composeAndCreate mcpSt name desc ifaces now date).2 ∧
      (composeAndCreate mcpSt name desc ifaces now date).1.servers
        = putKey mcpSt.servers (composeAndCreate mcpSt name desc ifaces now date).2.id
            (composeAndCreate mcpSt name desc ifaces now date).2) := by
  refine ⟨?_, ?_, ?_⟩
  · intro hval
    exact ⟨by simp [createMCPServer, hval], rfl⟩
  · intro hval hres
    exact ⟨by simp [createMCPServer, hval, hres], rfl⟩
  · intro hval hres
    refine ⟨by simp [createMCPServer, hval, hres, composeAndCreate], rfl, ?_, ?_, rfl⟩
    · show ({ NewMCPServerFromHTTPInterfaces name desc ifaces now with
          id := _, createdAt := now, updatedAt := now, version := 1 } : MCPServer).status
        = "draft"
      simp only [NewMCPServerFromHTTPInterfaces]
      exact foldl_composeToolStep_status _ _
    · simp [composeAndCreate, mcpCreate, mcpGetByID, lookupKey_putKey_self]

/-- Witness for c7_create_collision: creating x succeeds as a version-1
draft, re-creating x is the conflict rejection, and a missing id is the
not-found rejection, each leaving the state unchanged. -/
theorem c7_create_collision_witness :
    (createMCPServer mcpRepoEmpty httpRepoEmpty "x" "" [] 0 "d"
        = (CreateServerResult.created (composeAndCreate mcpRepoEmpty "x" "" [] 0 "d").2,
           (composeAndCreate mcpRepoEmpty "x" "" [] 0 "d").1) ∧
      (composeAndCreate mcpRepoEmpty "x" "" [] 0 "d").2.version = 1 ∧
      (composeAndCreate mcpRepoEmpty "x" "" [] 0 "d").2.status = "draft" ∧
      mcpGetByID (composeAndCreate mcpRepoEmpty "x" "" [] 0 "d").1
          (composeAndCreate mcpRepoEmpty "x" "" [] 0 "d").2.id
        = some (composeAndCreate mcpRepoEmpty "x" "" [] 0 "d").2 ∧
      (composeAndCreate mcpRepoEmpty "x" "" [] 0 "d").1.servers
        = putKey mcpRepoEmpty.servers (composeAndCreate mcpRepoEmpty "x" "" [] 0 "d").2.id
            (composeAndCreate mcpRepoEmpty "x" "" [] 0 "d").2) ∧
    (createMCPServer (composeAndCreate mcpRepoEmpty "x" "" [] 0 "d").1 httpRepoEmpty
        "x" "" [] 1 "d"
      = (CreateServerResult.conflictName, (composeAndCreate mcpRepoEmpty "x" "" [] 0 "d").1)) ∧
    (createMCPServer mcpRepoEmpty httpRepoEmpty "y" "" ["nope"] 0 "d"
      = (CreateServerResult.missingInterface "nope", mcpRepoEmpty)) :=
  ⟨(c7_create_collision mcpRepoEmpty httpRepoEmpty "x" "" [] 0 "d" "" []).2.2
      (by decide) rfl,
   ((c7_create_collision (composeAndCreate mcpRepoEmpty "x" "" [] 0 "d").1 httpRepoEmpty
       "x" "" [] 1 "d" "" []).1 (by decide)).1,
   ((c7_create_collision mcpRepoEmpty httpRepoEmpty "y" "" ["nope"] 0 "d" "nope" []).2.1
      (by decide) rfl).1⟩

/-- C8 counterexample: the update endpoint persists a payload whose
allowTools names a tool absent from the tools list, breaking the claimed
containment invariant after an update. -/
theorem c8_counterexample :
    allowToolsSubset { svDraft with id := "s1", name := "x" } = true ∧
    (updateMCPServer c8st "s1" c8payload 5).1 = UpdateServerResult.updated c8stored2 ∧
    mcpGetByID c8st2 "s1" = some c8stored2 ∧
    allowToolsSubset c8stored2 = false := by
  refine ⟨by decide, by decide, by decide, by decide⟩

/-- C8 amended: a freshly composed server satisfies the containment - its
allowTools equals the list of its tool names - and the status mutations of
the lifecycle preserve the containment status of every stored server; the
update endpoint, however, does not enforce it. -/
theorem c8_allow_containment (name desc : String) (ifaces : List HTTPInterface)
    (now : Nat) (st st2 : MCPRepoState) (id status k : String) :
    ((NewMCPServerFromHTTPInterfaces name desc ifaces now).allowTools
      = (NewMCPServerFromHTTPInterfaces name desc ifaces now).tools.map (fun t => t.name)) ∧
    allowToolsSubset (NewMCPServerFromHTTPInterfaces name desc ifaces now) = true ∧
    (mcpUpdateStatus st id status now = some st2 →
      (lookupKey st2.servers k).map allowToolsSubset
        = (lookupKey st.servers k).map allowToolsSubset) := by
  have hallow : (NewMCPServerFromHTTPInterfaces name desc ifaces now).allowTools
      = (NewMCPServerFromHTTPInterfaces name desc ifaces now).tools.map (fun t => t.name) := by
    simp only [NewMCPServerFromHTTPInterfaces]
    exact foldl_composeToolStep_allow _ _ (by simp)
  refine ⟨hallow, ?_, ?_⟩
  · simp only [allowToolsSubset, hallow, List.all_eq_true]
    intro n hn
    exact List.elem_eq_true_of_mem hn
  · intro hupd
    rcases hl : lookupKey st.servers id with _ | sv1
    · simp [mcpUpdateStatus, hl] at hupd
    · simp only [mcpUpdateStatus, hl, Option.some.injEq] at hupd
      subst hupd
      by_cases hk : k = id
      · subst hk
        simp only [lookupKey_putKey_self, hl, Option.map_some]
        simp [allowToolsSubset]
      · rw [lookupKey_putKey_ne _ _ _ _ hk]

/-- Witness for c8_allow_containment: a concrete composition satisfies the
containment and activate preserves the containment map of stGate. -/
theorem c8_allow_containment_witness :
    allowToolsSubset (NewMCPServerFromHTTPInterfaces "gh" "" [c6plain] 0) = true ∧
    ((mcpUpdateStatus stGate "s2" "active" 3).getD mcpRepoEmpty).servers.map
        (fun kv => allowToolsSubset kv.2)
      = stGate.servers.map (fun kv => allowToolsSubset kv.2) :=
  ⟨(c8_allow_containment "gh" "" [c6plain] 0 stGate stGate "s2" "active" "s2").2.1,
   by
    have h := (c8_allow_containment "gh" "" [c6plain] 3 stGate
        ((mcpUpdateStatus stGate "s2" "active" 3).getD mcpRepoEmpty) "s2" "active" "s1").2.2
      (by decide)
    decide⟩

theorem findXMethod_none_of_not_contains (l : List Char)
    (h : listContains l ['-', 'X'] = false) : findXMethod l = none := by
  induction l with
  | nil => rfl
  | cons c tl ih =>
    simp only [listContains, Bool.or_eq_false_iff] at h
    obtain ⟨hpre, htl⟩ := h
    have hatt : xAttempt c tl = none := by
      by_cases hc : c = '-' ∧ tl.head? = some 'X'
      · exfalso
        obtain ⟨hc1, hc2⟩ := hc
        cases tl with
        | nil => simp at hc2
        | cons c2 tl2 =>
          simp only [List.head?_cons, Option.some.injEq] at hc2
          subst hc1
          subst hc2
          simp [List.isPrefixOf] at hpre
      · simp [xAttempt, hc]
    simp only [findXMethod, hatt]
    exact ih htl

/-- C9 counterexample: a curl command whose only payload flag is --data-raw
parses to method GET, not the POST the spec claims for the data flags. -/
theorem c9_counterexample :
    parseCurlMethod "curl --data-raw a=1 https://x.example.com/p" = "GET" ∧
    ("GET" : String) ≠ "POST" := by
  exact ⟨by decide, by decide⟩

/-- C9 amended: the parsed method is the leftmost match of -X followed by
whitespace and a maximal run of upper-case letters, with no case folding;
absent such a match - in particular whenever the stripped command contains
no -X at all - the method defaults to GET, turning to POST exactly when the
space-delimited token -d or --data occurs, which --data-raw is not. -/
theorem c9_method_rule (cmd m : String) :
    (findXMethod (stripCurlCmd cmd).data = some m → parseCurlMethod cmd = m) ∧
    (findXMethod (stripCurlCmd cmd).data = none →
      parseCurlMethod cmd
        = (if hasDataSpaceFlag (stripCurlCmd cmd) then "POST" else "GET")) ∧
    (strContains (stripCurlCmd cmd) "-X" = false →
      parseCurlMethod cmd
        = (if hasDataSpaceFlag (stripCurlCmd cmd) then "POST" else "GET")) := by
  refine ⟨?_, ?_, ?_⟩
  · intro h
    simp [parseCurlMethod, h]
  · intro h
    simp [parseCurlMethod, h]
  · intro h
    have hnone : findXMethod (stripCurlCmd cmd).data = none :=
      findXMethod_none_of_not_contains _ h
    simp [parseCurlMethod, hnone]

/-- Witness for c9_method_rule: an upper-case -X match wins, a plain -d
flag defaults to POST, and a lower-case -X method is ignored, falling back
to GET. -/
theorem c9_method_rule_witness :
    parseCurlMethod "curl -X PUT https://e.example.com/a" = "PUT" ∧
    parseCurlMethod "curl https://e.example.com/a -d a=1" = "POST" ∧
    parseCurlMethod "curl -X post https://e.example.com/a" = "GET" :=
  ⟨(c9_method_rule "curl -X PUT https://e.example.com/a" "PUT").1 (by decide),
   ((c9_method_rule "curl https://e.example.com/a -d a=1" "").2.1 (by decide)).trans
     (by decide),
   ((c9_method_rule "curl -X post https://e.example.com/a" "").2.1 (by decide)).trans
     (by decide)⟩

theorem mem_cloneTools_refs (l : List RTool) (start base : Nat) (i : Nat)
    (hi : i ∈ (((List.enumFrom start l).map
      (fun ti => rToolRefs
        { ti.2 with headers := ti.2.headers.map (fun p => (base + ti.1, p.2)) })).flatten)) :
    base ≤ i := by
  induction l generalizing start with
  | nil => simp at hi
  | cons hd tl ih =>
    simp only [List.enumFrom_cons, List.map_cons, List.flatten_cons, List.mem_append] at hi
    rcases hi with hi | hi
    · rcases hhd : hd.headers with _ | p
      · simp [rToolRefs, hhd] at hi
      · simp [rToolRefs, hhd] at hi
        omega
    · exact ih (start + 1) hi

theorem cloneTools_data (l : List RTool) (start base : Nat) :
    ((List.enumFrom start l).map
      (fun ti => rToolData
        { ti.2 with headers := ti.2.headers.map (fun p => (base + ti.1, p.2)) }))
      = l.map rToolData := by
  induction l generalizing start with
  | nil => rfl
  | cons hd tl ih =>
    simp only [List.enumFrom_cons, List.map_cons]
    have hhead : rToolData
        { hd with headers := hd.headers.map (fun p => (base + start, p.2)) }
        = rToolData hd := by
      rcases hhd : hd.headers with _ | p <;> simp [rToolData, hhd]
    rw [hhead, ih (start + 1)]

theorem mem_cloneResponses_refs (l : List RResponse) (start base : Nat) (i : Nat)
    (hi : i ∈ (((List.enumFrom start l).map
      (fun ri => match ({ ri.2 with
          body := ri.2.body.map (fun p => (base + ri.1, p.2)) } : RResponse).body with
        | some p => [p.1]
        | none => [])).flatten)) :
    base ≤ i := by
  induction l generalizing start with
  | nil => simp at hi
  | cons hd tl ih =>
    simp only [List.enumFrom_cons, List.map_cons, List.flatten_cons, List.mem_append] at hi
    rcases hi with hi | hi
    · rcases hhd : hd.body with _ | p
      · simp [hhd] at hi
      · simp [hhd] at hi
        omega
    · exact ih (start + 1) hi

theorem cloneResponses_data (l : List RResponse) (start base : Nat) :
    ((List.enumFrom start l).map
      (fun ri => rResponseData
        { ri.2 with body := ri.2.body.map (fun p => (base + ri.1, p.2)) }))
      = l.map rResponseData := by
  induction l generalizing start with
  | nil => rfl
  | cons hd tl ih =>
    simp only [List.enumFrom_cons, List.map_cons]
    have hhead : rResponseData
        { hd with body := hd.body.map (fun p => (base + start, p.2)) }
        = rResponseData hd := by
      rcases hhd : hd.body with _ | p <;> simp [rResponseData, hhd]
    rw [hhead, ih (start + 1)]

theorem cloneMCPServer_refs_ge (sv : RMCPServer) (n : Nat) (i : Nat)
    (hi : i ∈ rServerRefs (cloneMCPServer sv n)) : n ≤ i := by
  simp only [rServerRefs, cloneMCPServer, List.mem_cons] at hi
  rcases hi with hi | hi | hi
  · omega
  · omega
  · have := mem_cloneTools_refs sv.tools.2 0 (n + 2) i (by
      simpa [List.enum] using hi)
    omega

theorem cloneHTTPInterface_refs_ge (h : RHTTPInterface) (n : Nat) (i : Nat)
    (hi : i ∈ rHTTPRefs (cloneHTTPInterface h n)) : n ≤ i := by
  simp only [rHTTPRefs, cloneHTTPInterface, List.mem_append] at hi
  rcases hi with (((hiA | hiB) | hiC) | hiD) | hiE
  · by_cases hhd : h.headers.2.isEmpty
    · rw [if_pos hhd, if_pos hhd] at hiA
      simp at hiA
    · rw [if_neg hhd] at hiA
      rw [if_neg hhd] at hiA
      simp at hiA
      omega
  · by_cases hpm : h.parameters.2.isEmpty
    · rw [if_pos hpm, if_pos hpm] at hiB
      simp at hiB
    · rw [if_neg hpm] at hiB
      rw [if_neg hpm] at hiB
      simp at hiB
      omega
  · rcases hb : h.requestBody with _ | p
    · rw [hb] at hiC
      simp at hiC
    · rw [hb] at hiC
      simp at hiC
      omega
  · by_cases hrs : h.responses.2.isEmpty
    · rw [if_pos hrs, if_pos hrs] at hiD
      simp at hiD
    · rw [if_neg hrs] at hiD
      have hne : ¬ ((h.responses.2.enum).map
          (fun ri => ({ ri.2 with
            body := ri.2.body.map (fun p => (n + 4 + ri.1, p.2)) } : RResponse))).isEmpty := by
        rcases hl : h.responses.2 with _ | ⟨r0, rtl⟩
        · exact absurd (by rw [hl]; rfl) hrs
        · simp [List.enum, List.enumFrom]
      rw [if_neg hne] at hiD
      simp at hiD
      omega
  · by_cases hrs : h.responses.2.isEmpty
    · rw [if_pos hrs] at hiE
      rw [List.isEmpty_iff] at hrs
      rw [hrs] at hiE
      simp at hiE
    · rw [if_neg hrs] at hiE
      have := mem_cloneResponses_refs h.responses.2 0 (n + 4) i (by
        simp only [List.map_map] at hiE
        simpa [List.enum, Function.comp] using hiE)
      omega

/-- C10: repository read isolation.  The clone helpers behind GetByID,
GetAll and GetByVersion return values that share no mutable cell with the
stored record - every allocation identity of the clone is fresh - while
carrying exactly the same content, so mutating a returned record can never
change what a later read observes. -/
theorem c10_read_isolation (sv : RMCPServer) (h : RHTTPInterface) (n m : Nat)
    (hsv : ∀ i ∈ rServerRefs sv, i < n) (hh : ∀ i ∈ rHTTPRefs h, i < m) :
    (∀ i ∈ rServerRefs (cloneMCPServer sv n), i ∉ rServerRefs sv) ∧
    rServerData (cloneMCPServer sv n) = rServerData sv ∧
    (∀ i ∈ rHTTPRefs (cloneHTTPInterface h m), i ∉ rHTTPRefs h) ∧
    rHTTPData (cloneHTTPInterface h m) = rHTTPData h := by
  refine ⟨?_, ?_, ?_, ?_⟩
  · intro i hi hmem
    exact absurd (hsv i hmem) (Nat.not_lt.mpr (cloneMCPServer_refs_ge sv n i hi))
  · simp only [rServerData, cloneMCPServer, Prod.mk.injEq, true_and]
    simpa [List.enum] using cloneTools_data sv.tools.2 0 (n + 2)
  · intro i hi hmem
    exact absurd (hh i hmem) (Nat.not_lt.mpr (cloneHTTPInterface_refs_ge h m i hi))
  · simp only [rHTTPData, cloneHTTPInterface, Prod.mk.injEq, true_and]
    refine ⟨?_, ?_, ?_, ?_⟩
    · by_cases hd : h.headers.2.isEmpty
      · simp [hd]
      · simp [hd]
    · by_cases hd : h.parameters.2.isEmpty
      · simp [hd]
      · simp [hd]
    · rcases hb : h.requestBody with _ | p <;> simp [hb]
    · by_cases hd : h.responses.2.isEmpty
      · simp [hd]
      · simp only [hd, Bool.false_eq_true, not_false_eq_true, if_neg]
        simpa [List.enum] using cloneResponses_data h.responses.2 0 (m + 4)

/-- Witness for c10_read_isolation on concrete annotated records: clones
preserve content and their allocation identities avoid the originals. -/
theorem c10_read_isolation_witness :
    rServerData (cloneMCPServer c10sv 3) = rServerData c10sv ∧
    rHTTPData (cloneHTTPInterface c10http 5) = rHTTPData c10http ∧
    (3 : Nat) ∉ rServerRefs c10sv ∧ (5 : Nat) ∉ rHTTPRefs c10http :=
  ⟨(c10_read_isolation c10sv c10http 3 5 (by decide) (by decide)).2.1,
   (c10_read_isolation c10sv c10http 3 5 (by decide) (by decide)).2.2.2,
   (c10_read_isolation c10sv c10http 3 5 (by decide) (by decide)).1 3 (by decide),
   (c10_read_isolation c10sv c10http 3 5 (by decide) (by decide)).2.2.1 5 (by decide)⟩

theorem digitVal_digitChar (d : Nat) (h : d < 10) : digitVal (digitChar d) = some d := by
  interval_cases d <;> decide

theorem parseNatAux_append (acc : Nat) (xs ys : List Char) :
    parseNatAux acc (xs ++ ys)
      = match parseNatAux acc xs with
        | some a => parseNatAux a ys
        | none => none := by
  induction xs generalizing acc with
  | nil => simp [parseNatAux]
  | cons c tl ih =>
    rcases hd : digitVal c with _ | d <;> simp [parseNatAux, hd, ih]

theorem natToDigits_zero (f : Nat) : natToDigits f 0 = [] := by
  cases f <;> simp [natToDigits]

theorem natToDigits_parse (f : Nat) : ∀ n acc, n ≤ f → 0 < n →
    parseNatAux acc (natToDigits f n)
      = some (acc * 10 ^ (natToDigits f n).length + n) := by
  induction f with
  | zero => intro n acc h1 h2; omega
  | succ f ih =>
    intro n acc h1 h2
    rw [natToDigits, if_neg (by omega)]
    by_cases h10 : n / 10 = 0
    · have hn10 : n < 10 := by omega
      rw [h10, natToDigits_zero, List.nil_append]
      have hmod : n % 10 = n := Nat.mod_eq_of_lt hn10
      rw [hmod]
      simp [parseNatAux, digitVal_digitChar n hn10]
    · have hle : n / 10 ≤ f := by
        have := Nat.div_lt_self h2 (by norm_num : 1 < 10)
        omega
      have hpos : 0 < n / 10 := Nat.pos_of_ne_zero h10
      rw [parseNatAux_append, ih (n / 10) acc hle hpos]
      simp only [parseNatAux, digitVal_digitChar (n % 10) (Nat.mod_lt n (by omega)),
        List.length_append, List.length_cons, List.length_nil]
      rw [pow_succ]
      congr 1
      have := Nat.div_add_mod n 10
      ring_nf
      omega

theorem natToDigits_ne_nil (n : Nat) (h : 0 < n) : natToDigits n n ≠ [] := by
  rcases n with _ | m
  · omega
  · rw [natToDigits, if_neg (by omega)]
    simp

theorem parseNatDigits_natToStrList (m : Nat) :
    parseNatDigits (natToStrList m) = some m := by
  by_cases hm : m = 0
  · subst hm
    decide
  · have hpos : 0 < m := Nat.pos_of_ne_zero hm
    rw [natToStrList, if_neg hm]
    obtain ⟨c, cs, heq⟩ := List.exists_cons_of_ne_nil (natToDigits_ne_nil m hpos)
    rw [heq]
    show parseNatAux 0 (c :: cs) = some m
    rw [← heq, natToDigits_parse m m 0 le_rfl hpos]
    norm_num

theorem mem_natToDigits_isDigit (f : Nat) : ∀ n c, c ∈ natToDigits f n →
    (digitVal c).isSome := by
  induction f with
  | zero => intro n c hc; simp [natToDigits] at hc
  | succ f ih =>
    intro n c hc
    rw [natToDigits] at hc
    by_cases hn : n = 0
    · simp [hn] at hc
    · rw [if_neg hn] at hc
      rcases List.mem_append.mp hc with hc | hc
      · exact ih (n / 10) c hc
      · simp only [List.mem_singleton] at hc
        subst hc
        rw [digitVal_digitChar (n % 10) (Nat.mod_lt n (by omega))]
        rfl

theorem atoi_intToStr (n : Int) : atoiModel (intToStr n) = some n := by
  by_cases hn : n < 0
  · show atoiModel ⟨intToStrList n⟩ = some n
    rw [intToStrList, if_pos hn]
    show (parseNatDigits (natToStrList n.natAbs)).map (fun m => -(m : Int)) = some n
    rw [parseNatDigits_natToStrList]
    show some (-(n.natAbs : Int)) = some n
    congr 1
    omega
  · show atoiModel ⟨intToStrList n⟩ = some n
    rw [intToStrList, if_neg hn]
    by_cases hz : n.natAbs = 0
    · have : n = 0 := by omega
      subst this
      decide
    · have hpos : 0 < n.natAbs := Nat.pos_of_ne_zero hz
      rw [natToStrList, if_neg hz]
      obtain ⟨c, cs, heq⟩ := List.exists_cons_of_ne_nil (natToDigits_ne_nil n.natAbs hpos)
      have hdig : (digitVal c).isSome := by
        refine mem_natToDigits_isDigit n.natAbs n.natAbs c ?_
        rw [heq]
        exact List.mem_cons_self c cs
      have hcm : ¬ c = '-' := by
        intro hc
        subst hc
        exact absurd hdig (by decide)
      have hcp : ¬ c = '+' := by
        intro hc
        subst hc
        exact absurd hdig (by decide)
      rw [heq]
      show atoiModel ⟨c :: cs⟩ = some n
      simp only [atoiModel, if_neg hcm, if_neg hcp]
      rw [← heq]
      have hres : parseNatDigits (natToDigits n.natAbs n.natAbs) = some n.natAbs := by
        have := parseNatDigits_natToStrList n.natAbs
        rwa [natToStrList, if_neg hz] at this
      rw [hres]
      show some ((n.natAbs : Int)) = some n
      congr 1
      omega

theorem intToStr_inj (a b : Int) (h : intToStr a = intToStr b) : a = b := by
  have ha := atoi_intToStr a
  rw [h, atoi_intToStr b] at ha
  exact (Option.some.injEq _ _ ▸ ha).symm

theorem lookupKey_append_left (l1 l2 : List (String × α)) (k : String) (v : α)
    (h : lookupKey l1 k = some v) : lookupKey (l1 ++ l2) k = some v := by
  induction l1 with
  | nil => simp [lookupKey, List.find?] at h
  | cons kv tl ih =>
    rw [List.cons_append, lookupKey_cons]
    rw [lookupKey_cons] at h
    by_cases hk : kv.1 = k
    · rwa [if_pos hk] at h ⊢
    · rw [if_neg hk] at h ⊢
      exact ih h

theorem lookupKey_append_right (l1 l2 : List (String × α)) (k : String)
    (h : lookupKey l1 k = none) : lookupKey (l1 ++ l2) k = lookupKey l2 k := by
  induction l1 with
  | nil => rfl
  | cons kv tl ih =>
    rw [List.cons_append, lookupKey_cons]
    rw [lookupKey_cons] at h
    by_cases hk : kv.1 = k
    · rw [if_pos hk] at h
      exact absurd h (by simp)
    · rw [if_neg hk] at h ⊢
      exact ih h

theorem putKey_notMem (kvs : List (String × α)) (k : String) (v : α)
    (h : lookupKey kvs k = none) : putKey kvs k v = kvs ++ [(k, v)] := by
  induction kvs with
  | nil => rfl
  | cons kv tl ih =>
    rw [lookupKey_cons] at h
    by_cases hk : kv.1 = k
    · rw [if_pos hk] at h
      exact absurd h (by simp)
    · rw [if_neg hk] at h
      rw [putKey, if_neg hk, ih h, List.cons_append]

theorem responsesVal_foldl (rs : List Response) (acc : List (String × GoVal))
    (hnd : (rs.map (fun r => intToStr r.statusCode)).Nodup)
    (hdisj : ∀ r ∈ rs, lookupKey acc (intToStr r.statusCode) = none) :
    rs.foldl (fun acc r => putKey acc (intToStr r.statusCode) (respObjVal r)) acc
      = acc ++ rs.map (fun r => (intToStr r.statusCode, respObjVal r)) := by
  induction rs generalizing acc with
  | nil => simp
  | cons r tl ih =>
    rw [List.foldl_cons, putKey_notMem acc _ _ (hdisj r (List.mem_cons_self r tl))]
    rw [List.map_cons] at hnd
    have hnd' := List.Nodup.of_cons hnd
    have hknotin : intToStr r.statusCode ∉ tl.map (fun r => intToStr r.statusCode) :=
      (List.nodup_cons.mp hnd).1
    rw [ih _ hnd' ?_]
    · simp
    · intro r' hr'
      rw [lookupKey_append_right _ _ _ (hdisj r' (List.mem_cons_of_mem r hr'))]
      have hne : ¬ (intToStr r.statusCode) = intToStr r'.statusCode := by
        intro hEq
        exact hknotin (hEq ▸ List.mem_map_of_mem (fun r => intToStr r.statusCode) hr')
      simp [lookupKey, List.find?, hne]

theorem responsesVal_eq_map (rs : List Response)
    (hnd : (rs.map (fun r => intToStr r.statusCode)).Nodup) :
    responsesVal rs = rs.map (fun r => (intToStr r.statusCode, respObjVal r)) := by
  have := responsesVal_foldl rs [] hnd (fun r _ => rfl)
  simpa [responsesVal] using this

theorem importParam_param (base : HTTPInterface) (p : Param) (hp : p.paramIn ≠ "header") :
    importParam base (paramToOpenAPI p)
      = { base with parameters := base.parameters ++ [{ p with schema := "" }] } := by
  have hget : ∀ v, ({ p with schema := v } : Param)
      = ⟨p.name, p.description, p.paramIn, p.required, p.type, v⟩ := fun v => rfl
  simp [importParam, paramToOpenAPI, asObj, asStrD, asBoolD, lookupKey, List.find?, hp]

theorem importParam_header (base : HTTPInterface) (hd : Header) :
    importParam base (headerToOpenAPI hd)
      = { base with headers := base.headers ++ [hd] } := by
  simp [importParam, headerToOpenAPI, asObj, asStrD, asBoolD, lookupKey, List.find?]

theorem importParams_fold_params (ps : List Param) (base : HTTPInterface)
    (hp : ∀ p ∈ ps, p.paramIn ≠ "header") :
    (ps.map paramToOpenAPI).foldl importParam base
      = { base with parameters := base.parameters ++ ps.map (fun p => { p with schema := "" }) } := by
  induction ps generalizing base with
  | nil => simp
  | cons p tl ih =>
    rw [List.map_cons, List.foldl_cons,
      importParam_param base p (hp p (List.mem_cons_self p tl)),
      ih _ (fun q hq => hp q (List.mem_cons_of_mem p hq))]
    simp

theorem importParams_fold_headers (hs : List Header) (base : HTTPInterface) :
    (hs.map headerToOpenAPI).foldl importParam base
      = { base with headers := base.headers ++ hs } := by
  induction hs generalizing base with
  | nil => simp
  | cons hd tl ih =>
    rw [List.map_cons, List.foldl_cons, importParam_header base hd, ih _]
    simp

theorem importResponse_entry (base : HTTPInterface) (r : Response) :
    importResponse base (intToStr r.statusCode) (respObjVal r)
      = { base with responses := base.responses ++
          [{ statusCode := r.statusCode, description := r.description,
             body := match lookupKey
                 ([("description", GoVal.vStr r.description)]
                   ++ (match r.body with
                       | some b => [("content", contentEntryVal b)]
                       | none => [])) "content" with
               | some contentVal => importContentBody contentVal
               | none => none }] } := by
  simp only [importResponse, respObjVal, asObj, atoi_intToStr r.statusCode]
  have hdesc : asStrD
      ([("description", GoVal.vStr r.description)]
        ++ (match r.body with
            | some b => [("content", contentEntryVal b)]
            | none => [])) "description" = r.description := by
    simp [asStrD, lookupKey, List.find?]
  rw [hdesc]

theorem importResponses_fold (l : List Response) (base : HTTPInterface) :
    ((l.map (fun r => (intToStr r.statusCode, respObjVal r))).foldl
        (fun acc kv => importResponse acc kv.1 kv.2) base).responses.map
        (fun x => x.statusCode)
      = base.responses.map (fun x => x.statusCode)
          ++ l.map (fun r => r.statusCode) := by
  induction l generalizing base with
  | nil => simp
  | cons r tl ih =>
    rw [List.map_cons, List.foldl_cons]
    show ((tl.map (fun r => (intToStr r.statusCode, respObjVal r))).foldl
        (fun acc kv => importResponse acc kv.1 kv.2)
        (importResponse base (intToStr r.statusCode) (respObjVal r))).responses.map
        (fun x => x.statusCode) = _
    rw [importResponse_entry base r, ih]
    simp

theorem importResponses_fold_frame (l : List (String × GoVal)) (base : HTTPInterface) :
    (l.foldl (fun acc kv => importResponse acc kv.1 kv.2) base).method = base.method ∧
    (l.foldl (fun acc kv => importResponse acc kv.1 kv.2) base).path = base.path ∧
    (l.foldl (fun acc kv => importResponse acc kv.1 kv.2) base).headers = base.headers ∧
    (l.foldl (fun acc kv => importResponse acc kv.1 kv.2) base).parameters
      = base.parameters ∧
    (l.foldl (fun acc kv => importResponse acc kv.1 kv.2) base).requestBody
      = base.requestBody := by
  induction l generalizing base with
  | nil => exact ⟨rfl, rfl, rfl, rfl, rfl⟩
  | cons kv tl ih =>
    rw [List.foldl_cons]
    have hstep : ∀ b : HTTPInterface,
        (importResponse b kv.1 kv.2).method = b.method ∧
        (importResponse b kv.1 kv.2).path = b.path ∧
        (importResponse b kv.1 kv.2).headers = b.headers ∧
        (importResponse b kv.1 kv.2).parameters = b.parameters ∧
        (importResponse b kv.1 kv.2).requestBody = b.requestBody := by
      intro b
      simp only [importResponse]
      rcases asObj kv.2 with _ | obj
      · exact ⟨rfl, rfl, rfl, rfl, rfl⟩
      · rcases atoiModel kv.1 with _ | code
        · exact ⟨rfl, rfl, rfl, rfl, rfl⟩
        · exact ⟨rfl, rfl, rfl, rfl, rfl⟩
    obtain ⟨h1, h2, h3, h4, h5⟩ := ih (importResponse base kv.1 kv.2)
    obtain ⟨g1, g2, g3, g4, g5⟩ := hstep base
    exact ⟨h1.trans g1, h2.trans g2, h3.trans g3, h4.trans g4, h5.trans g5⟩

theorem strToUpper_strToLower_method (m : String)
    (hm : m = "GET" ∨ m = "POST" ∨ m = "PUT" ∨ m = "DELETE" ∨ m = "PATCH") :
    strToUpper (strToLower m) = m := by
  rcases hm with hm | hm | hm | hm | hm <;> subst hm <;> decide

theorem operationVal_lookup_opid (h : HTTPInterface) :
    lookupKey (operationVal h) "operationId" = some (GoVal.vStr h.name) := by
  simp only [operationVal, List.append_assoc]
  apply lookupKey_append_left
  simp [lookupKey, List.find?]

theorem operationVal_lookup_params (h : HTTPInterface) :
    lookupKey (operationVal h) "parameters"
      = (if h.parameters.isEmpty && h.headers.isEmpty then none
         else some (GoVal.vArr
           (h.parameters.map paramToOpenAPI ++ h.headers.map headerToOpenAPI))) := by
  simp only [operationVal, List.append_assoc]
  rw [lookupKey_append_right _ _ _ (by simp [lookupKey, List.find?])]
  by_cases hc : h.parameters.isEmpty && h.headers.isEmpty
  · rw [if_pos hc, if_pos hc, List.nil_append]
    rcases hb : h.requestBody with _ | b
    · simp [lookupKey, List.find?]
    · simp [lookupKey, List.find?]
  · rw [if_neg hc, if_neg hc]
    apply lookupKey_append_left
    simp [lookupKey, List.find?]

theorem operationVal_lookup_reqbody (h : HTTPInterface) :
    lookupKey (operationVal h) "requestBody"
      = (match h.requestBody with
         | some b => some (requestBodyVal b)
         | none => none) := by
  simp only [operationVal, List.append_assoc]
  rw [lookupKey_append_right _ _ _ (by simp [lookupKey, List.find?])]
  by_cases hc : h.parameters.isEmpty && h.headers.isEmpty
  · rw [if_pos hc, List.nil_append]
    rcases hb : h.requestBody with _ | b
    · simp [lookupKey, List.find?]
    · apply lookupKey_append_left
      simp [lookupKey, List.find?]
  · rw [if_neg hc]
    rw [lookupKey_append_right _ _ _ (by simp [lookupKey, List.find?])]
    rcases hb : h.requestBody with _ | b
    · simp [lookupKey, List.find?]
    · apply lookupKey_append_left
      simp [lookupKey, List.find?]

theorem operationVal_lookup_responses (h : HTTPInterface) :
    lookupKey (operationVal h) "responses"
      = some (GoVal.vObj (responsesVal h.responses)) := by
  simp only [operationVal, List.append_assoc]
  rw [lookupKey_append_right _ _ _ (by simp [lookupKey, List.find?])]
  by_cases hc : h.parameters.isEmpty && h.headers.isEmpty
  · rw [if_pos hc, List.nil_append]
    rcases hb : h.requestBody with _ | b
    · simp [lookupKey, List.find?]
    · rw [lookupKey_append_right _ _ _ (by simp [lookupKey, List.find?])]
      simp [lookupKey, List.find?]
  · rw [if_neg hc]
    rw [lookupKey_append_right _ _ _ (by simp [lookupKey, List.find?])]
    rcases hb : h.requestBody with _ | b
    · simp [lookupKey, List.find?]
    · rw [lookupKey_append_right _ _ _ (by simp [lookupKey, List.find?])]
      simp [lookupKey, List.find?]

theorem applyOperationId_frame (op : List (String × GoVal)) (h : HTTPInterface) :
    (applyOperationId op h).method = h.method ∧
    (applyOperationId op h).path = h.path ∧
    (applyOperationId op h).headers = h.headers ∧
    (applyOperationId op h).parameters = h.parameters ∧
    (applyOperationId op h).requestBody = h.requestBody ∧
    (applyOperationId op h).responses = h.responses := by
  simp only [applyOperationId]
  rcases hl : lookupKey op "operationId" with _ | v
  · exact ⟨rfl, rfl, rfl, rfl, rfl, rfl⟩
  · cases v with
    | vStr s => by_cases hs : s ≠ "" <;> simp [hs]
    | vNull => exact ⟨rfl, rfl, rfl, rfl, rfl, rfl⟩
    | vBool b => exact ⟨rfl, rfl, rfl, rfl, rfl, rfl⟩
    | vNum x => exact ⟨rfl, rfl, rfl, rfl, rfl, rfl⟩
    | vArr xs => exact ⟨rfl, rfl, rfl, rfl, rfl, rfl⟩
    | vObj kvs => exact ⟨rfl, rfl, rfl, rfl, rfl, rfl⟩

theorem applyParameters_char (op : List (String × GoVal)) (h : HTTPInterface)
    (ps : List Param) (hs2 : List Header)
    (hp : ∀ p ∈ ps, p.paramIn ≠ "header")
    (hl : lookupKey op "parameters"
      = (if ps.isEmpty && hs2.isEmpty then none
         else some (GoVal.vArr (ps.map paramToOpenAPI ++ hs2.map headerToOpenAPI)))) :
    applyParameters op h
      = { h with
          parameters := h.parameters ++ ps.map (fun p => { p with schema := "" })
          headers := h.headers ++ hs2 } := by
  by_cases hc : (ps.isEmpty && hs2.isEmpty) = true
  · rw [if_pos hc] at hl
    have hps : ps = [] := by
      rcases ps with _ | _
      · rfl
      · simp at hc
    have hhs : hs2 = [] := by
      rcases hs2 with _ | _
      · rfl
      · simp [hps] at hc
    subst hps
    subst hhs
    simp [applyParameters, hl]
  · rw [if_neg hc] at hl
    simp only [applyParameters, hl]
    rw [List.foldl_append, importParams_fold_params ps h hp, importParams_fold_headers]

theorem applyRequestBody_none (op : List (String × GoVal)) (h : HTTPInterface)
    (hl : lookupKey op "requestBody" = none) :
    applyRequestBody op h = h := by
  simp [applyRequestBody, hl]

theorem applyRequestBody_some (op : List (String × GoVal)) (h : HTTPInterface)
    (b : Body) (hl : lookupKey op "requestBody" = some (requestBodyVal b)) :
    applyRequestBody op h
      = { h with requestBody := importContentBody (contentEntryVal b) } := by
  simp only [applyRequestBody, hl, requestBodyVal, asObj]
  have hcontent : lookupKey
      [("description", GoVal.vStr "Request body"), ("content", contentEntryVal b)]
      "content" = some (contentEntryVal b) := by
    simp [lookupKey, List.find?]
  rw [hcontent]

theorem applyResponses_char (op : List (String × GoVal)) (h : HTTPInterface)
    (rs : List Response)
    (hl : lookupKey op "responses"
      = some (GoVal.vObj (rs.map (fun r => (intToStr r.statusCode, respObjVal r))))) :
    (applyResponses op h).responses.map (fun x => x.statusCode)
        = h.responses.map (fun x => x.statusCode) ++ rs.map (fun r => r.statusCode) ∧
    (applyResponses op h).method = h.method ∧
    (applyResponses op h).path = h.path ∧
    (applyResponses op h).headers = h.headers ∧
    (applyResponses op h).parameters = h.parameters ∧
    (applyResponses op h).requestBody = h.requestBody := by
  simp only [applyResponses, hl]
  exact ⟨importResponses_fold rs h, importResponses_fold_frame _ h⟩

theorem importContentBody_contentEntry (b : Body) :
    (importContentBody (contentEntryVal b)).map (fun x => x.contentType)
      = some b.contentType := by
  simp [importContentBody, contentEntryVal, asObj, isObjVal, List.find?]

/-- C6 (amended round-trip law): for an endpoint whose method is one of the
five verbs, whose parameters are not tagged in=header, and whose response
status codes are distinct, exporting to OpenAPI and importing the document
back yields exactly one endpoint preserving the method, the path, the
header set, the parameter set modulo each parameter's dropped schema
annotation, the request-body content type, and the response status
codes. -/
theorem c6_roundtrip (h : HTTPInterface) (n d : String)
    (hm : h.method = "GET" ∨ h.method = "POST" ∨ h.method = "PUT" ∨
      h.method = "DELETE" ∨ h.method = "PATCH")
    (hp : ∀ p ∈ h.parameters, p.paramIn ≠ "header")
    (hr : (h.responses.map (fun r => r.statusCode)).Nodup) :
    ∃ h' : HTTPInterface,
      CreateFromOpenAPI n d (ConvertToOpenAPI h) = Except.ok [h'] ∧
      h'.method = h.method ∧
      h'.path = h.path ∧
      h'.headers = h.headers ∧
      h'.parameters = h.parameters.map (fun p => { p with schema := "" }) ∧
      h'.requestBody.map (fun b => b.contentType)
        = h.requestBody.map (fun b => b.contentType) ∧
      h'.responses.map (fun r => r.statusCode)
        = h.responses.map (fun r => r.statusCode) := by
  refine ⟨importOperation n d h.path (strToLower h.method) (operationVal h), ?_, ?_⟩
  · simp [CreateFromOpenAPI, ConvertToOpenAPI, asObj, lookupKey, List.find?]
  · -- characterize the imported record
    have hndStr : ((h.responses.map (fun r => r.statusCode)).map intToStr).Nodup :=
      hr.map (fun a b hab => intToStr_inj a b hab)
    have hndStr2 : (h.responses.map (fun r => intToStr r.statusCode)).Nodup := by
      simpa [List.map_map, Function.comp] using hndStr
    have hRS : responsesVal h.responses
        = h.responses.map (fun r => (intToStr r.statusCode, respObjVal r)) :=
      responsesVal_eq_map h.responses hndStr2
    simp only [importOperation]
    have hreq := operationVal_lookup_reqbody h
    set base := importOpBase n d h.path (strToLower h.method) with hbase
    set b1 := applyOperationId (operationVal h) base with hb1def
    obtain ⟨f1m, f1p, f1h, f1pa, f1rb, f1rs⟩ := applyOperationId_frame (operationVal h) base
    set b2 := applyParameters (operationVal h) b1 with hb2def
    have hb2 : b2 = { b1 with
        parameters := b1.parameters ++ h.parameters.map (fun p => { p with schema := "" })
        headers := b1.headers ++ h.headers } :=
      applyParameters_char _ _ _ _ hp (operationVal_lookup_params h)
    set b3 := applyRequestBody (operationVal h) b2 with hb3def
    obtain ⟨g1, g2, g3, g4, g5, g6⟩ := applyResponses_char (operationVal h) b3 h.responses
      (by rw [operationVal_lookup_responses h, hRS])
    have hbasem : base.method = strToUpper (strToLower h.method) := rfl
    have hbasep : base.path = h.path := rfl
    rcases hrb : h.requestBody with _ | b
    · have hreq2 : lookupKey (operationVal h) "requestBody" = none := by
        rw [hreq, hrb]
      have hb3 : b3 = b2 := by
        rw [hb3def]
        exact applyRequestBody_none _ _ hreq2
      refine ⟨?_, ?_, ?_, ?_, ?_, ?_⟩
      · rw [g2, hb3, hb2]
        show b1.method = h.method
        rw [f1m, hbasem]
        exact strToUpper_strToLower_method h.method hm
      · rw [g3, hb3, hb2]
        show b1.path = h.path
        rw [f1p, hbasep]
      · rw [g4, hb3, hb2]
        show b1.headers ++ h.headers = h.headers
        rw [f1h]
        rfl
      · rw [g5, hb3, hb2]
        show b1.parameters ++ h.parameters.map (fun p => { p with schema := "" })
          = h.parameters.map (fun p => { p with schema := "" })
        rw [f1pa]
        rfl
      · rw [g6, hb3, hb2]
        show (b1.requestBody.map fun b => b.contentType) = none
        rw [f1rb]
        rfl
      · rw [g1, hb3, hb2]
        show (b1.responses.map fun x => x.statusCode)
            ++ (h.responses.map fun r => r.statusCode)
          = h.responses.map fun r => r.statusCode
        rw [f1rs]
        rfl
    · have hreq2 : lookupKey (operationVal h) "requestBody"
          = some (requestBodyVal b) := by
        rw [hreq, hrb]
      have hb3 : b3 = { b2 with requestBody := importContentBody (contentEntryVal b) } := by
        rw [hb3def]
        exact applyRequestBody_some _ _ _ hreq2
      refine ⟨?_, ?_, ?_, ?_, ?_, ?_⟩
      · rw [g2, hb3, hb2]
        show b1.method = h.method
        rw [f1m, hbasem]
        exact strToUpper_strToLower_method h.method hm
      · rw [g3, hb3, hb2]
        show b1.path = h.path
        rw [f1p, hbasep]
      · rw [g4, hb3, hb2]
        show b1.headers ++ h.headers = h.headers
        rw [f1h]
        rfl
      · rw [g5, hb3, hb2]
        show b1.parameters ++ h.parameters.map (fun p => { p with schema := "" })
          = h.parameters.map (fun p => { p with schema := "" })
        rw [f1pa]
        rfl
      · rw [g6, hb3]
        show ((importContentBody (contentEntryVal b)).map fun b => b.contentType)
          = some b.contentType
        exact importContentBody_contentEntry b
      · rw [g1, hb3, hb2]
        show (b1.responses.map fun x => x.statusCode)
            ++ (h.responses.map fun r => r.statusCode)
          = h.responses.map fun r => r.statusCode
        rw [f1rs]
        rfl

/-- C6 counterexample: importing the export of c6endpoint moves its
header-tagged parameter into the header list and drops the schema
annotation of its query parameter, so neither the parameter set nor the
header set of the original is preserved. -/
theorem c6_counterexample :
    (CreateFromOpenAPI "n" "d" (ConvertToOpenAPI c6endpoint)).toOption
      = some [c6imported] ∧
    c6imported.parameters ≠ c6endpoint.parameters ∧
    c6imported.headers ≠ c6endpoint.headers ∧
    c6imported.parameters
      = [{ name := "id", description := "", paramIn := "query", required := true,
           type := "integer", schema := "" }] ∧
    c6imported.headers
      = [{ name := "X-Token", description := "", required := false, type := "string" }] := by
  refine ⟨by decide, by decide, by decide, by decide, by decide⟩

/-- Witness for c6_roundtrip at the plain endpoint c6plain. -/
theorem c6_roundtrip_witness :
    ∃ h' : HTTPInterface,
      CreateFromOpenAPI "api" "d" (ConvertToOpenAPI c6plain) = Except.ok [h'] ∧
      h'.method = c6plain.method ∧
      h'.path = c6plain.path ∧
      h'.headers = c6plain.headers ∧
      h'.parameters = c6plain.parameters.map (fun p => { p with schema := "" }) ∧
      h'.requestBody.map (fun b => b.contentType)
        = c6plain.requestBody.map (fun b => b.contentType) ∧
      h'.responses.map (fun r => r.statusCode)
        = c6plain.responses.map (fun r => r.statusCode) :=
  c6_roundtrip c6plain "api" "d" (by decide) (by decide) (by decide)

end MCPGateway
